import Mathlib

/-!
# UDisks2 monitor (udisks2monitor.cpp): partition state machine, operation queue, error table

A shallow embedding of `UDisks2::Monitor`.  The monitor is a single sequential actor, so
every member function is a function on an explicit `Monitor` state.  Outbound asynchronous
D-Bus calls, emitted Qt signals and `m_manager->refresh(partition)` invocations are recorded
in traces that are part of that state.  Partitions are shared objects mutated by reference;
they are addressed here by their position in `m_manager->m_partitions`.
-/

namespace UDisks2

/-! ## Qt helpers -/

/-- Fields of `QString::split(sep, Qt::KeepEmptyParts)`: an empty string has one empty field. -/
def splitFields (sep : Char) : List Char → List (List Char)
  | [] => [[]]
  | c :: cs =>
    if c = sep then [] :: splitFields sep cs
    else
      match splitFields sep cs with
      | [] => [[c]]
      | f :: fs => (c :: f) :: fs

/-- Fields joined with the separator, as `QString::section` rebuilds its result. -/
def joinFields (sep : Char) : List (List Char) → List Char
  | [] => []
  | [f] => f
  | f :: g :: fs => f ++ sep :: joinFields sep (g :: fs)

/-- `QString::section(sep, start)` with the default `end = -1` and `SectionDefault` flags
(Qt library behaviour): empty fields are counted, the result is made of the fields from
position `start` up to the last one, joined by `sep`; it is empty when there are not more
than `start` fields. -/
def QString.section (s : String) (sep : Char) (start : Nat) : String :=
  let sections := splitFields sep s.data
  if start ≥ sections.length then ""
  else String.mk (joinFields sep (sections.drop start))

/-- A `QVariant` as far as the monitor stores one in an argument hash. -/
inductive QVariant where
  | str (s : String)
  | bool (b : Bool)
  deriving DecidableEq, Repr

/-- `QVariantHash`, kept as an association list with one entry per key. -/
abbrev QVariantHash := List (String × QVariant)

/-- `QHash::insert`: replaces the value of an existing key, otherwise adds the pair. -/
def QVariantHash.insert (h : QVariantHash) (key : String) (value : QVariant) : QVariantHash :=
  if h.any (fun kv => kv.1 == key) then
    h.map (fun kv => if kv.1 == key then (key, value) else kv)
  else h ++ [(key, value)]

/-! ## Data model -/

/-- `Partition::Status`, the values the monitor assigns or emits. -/
inductive Status where
  | Unmounted | Mounting | Mounted | Unmounting | Formatting | Formatted
  deriving DecidableEq, Repr

/-- `Partition::Error`, the error codes paired with D-Bus error names in the error table. -/
inductive Error where
  | ErrorFailed | ErrorCancelled | ErrorAlreadyCancelled | ErrorNotAuthorized
  | ErrorNotAuthorizedCanObtain | ErrorNotAuthorizedDismissed | ErrorAlreadyMounted
  | ErrorNotMounted | ErrorOptionNotPermitted | ErrorMountedByOtherUser
  | ErrorAlreadyUnmounting | ErrorNotSupported | ErrorTimedout | ErrorWouldWakeup
  | ErrorDeviceBusy
  deriving DecidableEq, Repr

/-- The fields of `PartitionManagerPrivate::Partition` that the monitor reads or writes. -/
structure Partition where
  deviceName : String
  devicePath : String
  mountPath : String
  deviceLabel : String
  filesystemType : String
  readOnly : Bool
  canMount : Bool
  status : Status
  activeState : String
  mountFailed : Bool
  valid : Bool
  deriving DecidableEq, Repr

/-- `UDisks2::Job::Operation`; `Unknown` stands for every operation that is neither a mount,
an unmount nor a format. -/
inductive JobOperation where
  | Mount | Unmount | Format | Unknown
  deriving DecidableEq, Repr

/-- `UDisks2::Job::Status`. -/
inductive JobStatus where
  | Added | Completed
  deriving DecidableEq, Repr

/-- What the monitor reads from a `UDisks2::Job`: `operation()`, the string list stored under
`UDISKS2_JOB_KEY_OBJECTS`, `status()` and `deviceBusy()`. -/
structure Job where
  operation : JobOperation
  objects : List String
  status : JobStatus
  deviceBusy : Bool
  deriving DecidableEq, Repr

/-- What the monitor reads from a `UDisks2::Block`; `hintAuto` is
`value("HintAuto").toBool()`. -/
structure Block where
  path : String
  device : String
  mountPath : String
  idLabel : String
  idUUID : String
  idType : String
  isReadOnly : Bool
  hintAuto : Bool
  deriving DecidableEq, Repr

/-- An entry of `m_operationQueue`: `Operation(command, deviceName, type, arguments)`. -/
structure Operation where
  command : String
  deviceName : String
  type : String
  arguments : QVariantHash
  deriving DecidableEq, Repr

/-- The two methods `startMountOperation` accepts (`UDISKS2_FILESYSTEM_MOUNT`,
`UDISKS2_FILESYSTEM_UNMOUNT`). -/
inductive DBusMethod where
  | FilesystemMount | FilesystemUnmount
  deriving DecidableEq, Repr

/-- An asynchronous call sent to the storage service. `filesystem` is the `asyncCall` of
`startMountOperation` on the filesystem interface of a block device, `format` the
`asyncCall(UDISKS2_BLOCK_FORMAT, type, arguments)` of `doFormat`. -/
inductive Call where
  | filesystem (dbusMethod : DBusMethod) (deviceName : String) (arguments : QVariantHash)
  | format (deviceName : String) (type : String) (arguments : QVariantHash)
  deriving DecidableEq, Repr

/-- The Qt signals the monitor emits. -/
inductive Signal where
  | status (deviceName : String) (status : Status)
  | mountError (error : Error)
  | unmountError (error : Error)
  | formatError (error : Error)
  deriving DecidableEq, Repr

/-- State of the monitor together with what it shares with the partition manager.
`partitions` is `m_manager->m_partitions`, `supportedFileSystems` the result of
`m_manager->supportedFileSystems()`, `managerSignalsBlocked` the flag toggled by
`m_manager->blockSignals`.  `calls`, `signals` and `refreshCalls` are traces, oldest first:
the calls issued, the signals emitted and the partitions (by index) handed to
`m_manager->refresh(partition)`. -/
structure Monitor where
  partitions : List Partition
  supportedFileSystems : List String
  operationQueue : List Operation
  managerSignalsBlocked : Bool
  calls : List Call
  signals : List Signal
  refreshCalls : List Nat
  deriving DecidableEq, Repr

/-! ## Error table -/

/-- Modelled from the spec: the macro `UDISKS2_ERROR_ALREADY_MOUNTED` of udisks2defines.h,
which is not among the sources; it is the UDisks2 error name of the kind the table pairs it
with, spelled like the thirteen literal names of the table. -/
def UDISKS2_ERROR_ALREADY_MOUNTED : String := "org.freedesktop.UDisks2.Error.AlreadyMounted"

/-- Modelled from the spec: the macro `UDISKS2_ERROR_ALREADY_UNMOUNTING` of udisks2defines.h,
which is not among the sources; it is the UDisks2 error name of the kind the table pairs it
with. -/
def UDISKS2_ERROR_ALREADY_UNMOUNTING : String :=
  "org.freedesktop.UDisks2.Error.AlreadyUnmounting"

/-- `struct ErrorEntry`. -/
structure ErrorEntry where
  errorCode : Error
  dbusErrorName : String
  deriving DecidableEq, Repr

/-- The table `dbus_error_entries`. -/
def dbus_error_entries : List ErrorEntry :=
  [ ⟨Error.ErrorFailed, "org.freedesktop.UDisks2.Error.Failed"⟩,
    ⟨Error.ErrorCancelled, "org.freedesktop.UDisks2.Error.Cancelled"⟩,
    ⟨Error.ErrorAlreadyCancelled, "org.freedesktop.UDisks2.Error.AlreadyCancelled"⟩,
    ⟨Error.ErrorNotAuthorized, "org.freedesktop.UDisks2.Error.NotAuthorized"⟩,
    ⟨Error.ErrorNotAuthorizedCanObtain, "org.freedesktop.UDisks2.Error.NotAuthorizedCanObtain"⟩,
    ⟨Error.ErrorNotAuthorizedDismissed, "org.freedesktop.UDisks2.Error.NotAuthorizedDismissed"⟩,
    ⟨Error.ErrorAlreadyMounted, UDISKS2_ERROR_ALREADY_MOUNTED⟩,
    ⟨Error.ErrorNotMounted, "org.freedesktop.UDisks2.Error.NotMounted"⟩,
    ⟨Error.ErrorOptionNotPermitted, "org.freedesktop.UDisks2.Error.OptionNotPermitted"⟩,
    ⟨Error.ErrorMountedByOtherUser, "org.freedesktop.UDisks2.Error.MountedByOtherUser"⟩,
    ⟨Error.ErrorAlreadyUnmounting, UDISKS2_ERROR_ALREADY_UNMOUNTING⟩,
    ⟨Error.ErrorNotSupported, "org.freedesktop.UDisks2.Error.NotSupported"⟩,
    ⟨Error.ErrorTimedout, "org.freedesktop.UDisks2.Error.Timedout"⟩,
    ⟨Error.ErrorWouldWakeup, "org.freedesktop.UDisks2.Error.WouldWakeup"⟩,
    ⟨Error.ErrorDeviceBusy, "org.freedesktop.UDisks2.Error.DeviceBusy"⟩ ]

/-- The scan `for (i = 0; i < size; i++) if (strcmp(entries[i].dbusErrorName, errorCStr) == 0)
{ emit ...(entries[i].errorCode); break; }` shared by the completion handlers of
`startMountOperation` and `doFormat`: the code of the first entry whose name is the error
name, if there is one.  D-Bus error names hold no NUL character, so `strcmp` is equality. -/
def lookupError (entries : List ErrorEntry) (errorName : String) : Option Error :=
  match entries with
  | [] => none
  | entry :: rest =>
    if entry.dbusErrorName = errorName then some entry.errorCode
    else lookupError rest errorName

/-! ## Constants of udisks2defines.h -/

/-- Modelled from the spec: `UDISKS2_BLOCK_DEVICE_PATH.arg(deviceName)`; udisks2defines.h is
not among the sources.  The object path of a block device is the device name appended to
"/org/freedesktop/UDisks2/block_devices/", the path quoted in `interfacesAdded` and in
`externalBlockDevice`. -/
def UDISKS2_BLOCK_DEVICE_PATH (deviceName : String) : String :=
  "/org/freedesktop/UDisks2/block_devices/" ++ deviceName

/-- Modelled from the spec: job operation identifier `filesystem-mount`. -/
def UDISKS2_JOB_OP_FS_MOUNT : String := "filesystem-mount"

/-- Modelled from the spec: job operation identifier `filesystem-unmount`. -/
def UDISKS2_JOB_OP_FS_UNMOUNT : String := "filesystem-unmount"

/-- Modelled from the spec: job operation identifier `filesystem-format`. -/
def UDISKS2_JOB_OF_FS_FORMAT : String := "filesystem-format"

/-- Modelled from the spec: `UDisks2::Job::Job(path, data)` and `operation()` of udisks2job_p.h,
which is not among the sources.  A new job record has lifecycle status `Added`, is not busy,
and its operation kind is read from the operation identifier: Mount, Unmount, Format, or
other. -/
def Job.create (operation : String) (objects : List String) : Job :=
  { operation :=
      if operation = UDISKS2_JOB_OP_FS_MOUNT then JobOperation.Mount
      else if operation = UDISKS2_JOB_OP_FS_UNMOUNT then JobOperation.Unmount
      else if operation = UDISKS2_JOB_OF_FS_FORMAT then JobOperation.Format
      else JobOperation.Unknown,
    objects := objects,
    status := JobStatus.Added,
    deviceBusy := false }

/-- Modelled from the spec: `UDisks2::Job::complete(success)` of udisks2job_p.h, which is not
among the sources: the lifecycle status becomes `Completed`. -/
def Job.complete (job : Job) (_success : Bool) : Job :=
  { job with status := JobStatus.Completed }

/-! ## Monitor operations -/

/-- The call `m_manager->refresh(partition)` for the partition at index `i`. -/
def Monitor.refresh (m : Monitor) (i : Nat) : Monitor :=
  { m with refreshCalls := m.refreshCalls ++ [i] }

/-- The call `m_manager->blockSignals(block)`. -/
def Monitor.blockSignals (m : Monitor) (block : Bool) : Monitor :=
  { m with managerSignalsBlocked := block }

/-- The statement `emit signal`. -/
def Monitor.emit (m : Monitor) (signal : Signal) : Monitor :=
  { m with signals := m.signals ++ [signal] }

/-- Inner loop of `lookupPartitions`: the partitions of `m_manager->m_partitions`, in order,
whose `deviceName` is the given name. -/
def matchingPartitions (partitions : List Partition) (deviceName : String) : List Nat :=
  (List.range partitions.length).filter
    (fun i => (partitions[i]?).any (fun partition => partition.deviceName = deviceName))

/-- `UDisks2::Monitor::lookupPartitions(affectedPartions, objects)`: for each object path in
turn, the name is `object.section('/', 5)` and every partition with that `deviceName` is
appended to `affectedPartions`. -/
def lookupPartitions (partitions : List Partition) (affectedPartions : List Nat)
    (objects : List String) : List Nat :=
  objects.foldl
    (fun affected object =>
      affected ++ matchingPartitions partitions (QString.section object '/' 5))
    affectedPartions

/-- Body of the mount/unmount loop of `updatePartitionStatus` up to the assignment of
`mountFailed`, for one partition.  `operation` is the local variable of that name, which the
loop may overwrite and which is carried over to the next iteration. -/
def mountUnmountStep (job : Job) (success : Bool) (operation : JobOperation)
    (partition : Partition) : JobOperation × Partition :=
  let r : JobOperation × Partition :=
    if success then
      if job.status = JobStatus.Added then
        (operation,
          { partition with
            activeState := if operation = JobOperation.Mount then "activating" else "deactivating",
            status := if operation = JobOperation.Mount then Status.Mounting
                      else Status.Unmounting })
      else
        -- Completed busy unmount job shall stay in mounted state.
        let operation :=
          if job.deviceBusy = true ∧ operation = JobOperation.Unmount then JobOperation.Mount
          else operation
        (operation,
          { partition with
            activeState := if operation = JobOperation.Mount then "active" else "inactive",
            status := if operation = JobOperation.Mount then Status.Mounted
                      else Status.Unmounted })
    else
      (operation,
        { partition with
          activeState := "failed",
          status := if operation = JobOperation.Mount then Status.Mounted
                    else Status.Unmounted })
  (r.1, { r.2 with valid := true, mountFailed := if job.deviceBusy then false else !success })

/-- One iteration of the mount/unmount loop of `updatePartitionStatus` on the affected
partition at index `i`: the partition is rewritten in place and handed to
`m_manager->refresh` when its status is not the old one. -/
def mountUnmountLoop (job : Job) (success : Bool) (st : JobOperation × Monitor) (i : Nat) :
    JobOperation × Monitor :=
  match st.2.partitions[i]? with
  | none => st
  | some partition =>
    let oldStatus := partition.status
    let r := mountUnmountStep job success st.1 partition
    let m := { st.2 with partitions := st.2.partitions.set i r.2 }
    (r.1, if oldStatus ≠ r.2.status then m.refresh i else m)

/-- Body of the format loop of `updatePartitionStatus` up to `valid = true`, for one
partition. -/
def formatStep (job : Job) (success : Bool) (partition : Partition) : Partition :=
  let partition :=
    if success then
      if job.status = JobStatus.Added then
        { partition with activeState := "inactive", status := Status.Formatting }
      else
        { partition with activeState := "inactive", status := Status.Formatted }
    else
      { partition with activeState := "failed", status := Status.Unmounted }
  { partition with valid := true }

/-- One iteration of the format loop of `updatePartitionStatus` on the affected partition at
index `i`. -/
def formatLoop (job : Job) (success : Bool) (m : Monitor) (i : Nat) : Monitor :=
  match m.partitions[i]? with
  | none => m
  | some partition =>
    let oldStatus := partition.status
    let partition := formatStep job success partition
    let m := { m with partitions := m.partitions.set i partition }
    if oldStatus ≠ partition.status then m.refresh i else m

/-- `UDisks2::Monitor::updatePartitionStatus(job, success)`. -/
def updatePartitionStatus (m : Monitor) (job : Job) (success : Bool) : Monitor :=
  let operation := job.operation
  let affectedPartions := lookupPartitions m.partitions [] job.objects
  if operation = JobOperation.Mount ∨ operation = JobOperation.Unmount then
    (affectedPartions.foldl (mountUnmountLoop job success) (operation, m)).2
  else if operation = JobOperation.Format then
    affectedPartions.foldl (formatLoop job success) m
  else m

/-- Body of the loop of `updatePartitionProperties` for the partition at index `i`. -/
def updatePropertiesLoop (blockDevice : Block) (m : Monitor) (i : Nat) : Monitor :=
  match m.partitions[i]? with
  | none => m
  | some partition =>
    if partition.devicePath = blockDevice.device then
      let label := if blockDevice.idLabel = "" then blockDevice.idUUID else blockDevice.idLabel
      let filesystemType := blockDevice.idType
      let partition :=
        { partition with
          devicePath := blockDevice.device,
          mountPath := blockDevice.mountPath,
          deviceLabel := label,
          filesystemType := filesystemType,
          readOnly := blockDevice.isReadOnly,
          canMount := blockDevice.hintAuto && !(decide (filesystemType = ""))
                        && m.supportedFileSystems.contains filesystemType,
          valid := true }
      ({ m with partitions := m.partitions.set i partition }).refresh i
    else m

/-- `UDisks2::Monitor::updatePartitionProperties(blockDevice)`: a pass over all of
`m_manager->m_partitions`. -/
def updatePartitionProperties (m : Monitor) (blockDevice : Block) : Monitor :=
  (List.range m.partitions.length).foldl (updatePropertiesLoop blockDevice) m

/-- `UDisks2::Monitor::startMountOperation(dbusMethod, deviceName, arguments)`, the
synchronous part: the asynchronous call is sent and the in-progress status is emitted.  The
completion handler is `mountOperationFinished`. -/
def startMountOperation (m : Monitor) (dbusMethod : DBusMethod) (deviceName : String)
    (arguments : QVariantHash) : Monitor :=
  if deviceName = "" then m
  else
    let m := { m with calls := m.calls ++ [Call.filesystem dbusMethod deviceName arguments] }
    if dbusMethod = DBusMethod.FilesystemMount then
      m.emit (Signal.status deviceName Status.Mounting)
    else
      m.emit (Signal.status deviceName Status.Unmounting)

/-- `UDisks2::Monitor::mount(deviceName)`. -/
def mount (m : Monitor) (deviceName : String) : Monitor :=
  let arguments : QVariantHash := QVariantHash.insert [] "fstype" (QVariant.str "")
  startMountOperation m DBusMethod.FilesystemMount deviceName arguments

/-- `UDisks2::Monitor::unmount(deviceName)`. -/
def unmount (m : Monitor) (deviceName : String) : Monitor :=
  let arguments : QVariantHash := QVariantHash.insert [] "" (QVariant.str "")
  startMountOperation m DBusMethod.FilesystemUnmount deviceName arguments

/-- `UDisks2::Monitor::doFormat(deviceName, type, arguments)`, the synchronous part: the
asynchronous Format call is sent.  The completion handler is `formatFinished`. -/
def doFormat (m : Monitor) (deviceName : String) (type : String) (arguments : QVariantHash) :
    Monitor :=
  { m with calls := m.calls ++ [Call.format deviceName type arguments] }

/-- The loop over `affectedPartions` in `format` and the call after it: at the first mounted
partition the operation is queued, `unmount` is called and `format` returns; without one the
loop ends and `doFormat` is called. -/
def formatScan (m : Monitor) (deviceName : String) (type : String) (arguments : QVariantHash) :
    List Nat → Monitor
  | [] => doFormat m deviceName type arguments
  | i :: rest =>
    match m.partitions[i]? with
    | none => formatScan m deviceName type arguments rest
    | some partition =>
      if partition.status = Status.Mounted then
        unmount
          { m with
            operationQueue :=
              m.operationQueue ++ [Operation.mk "format" deviceName type arguments] }
          deviceName
      else formatScan m deviceName type arguments rest

/-- `UDisks2::Monitor::format(deviceName, type, label)`. -/
def format (m : Monitor) (deviceName : String) (type : String) (label : String) : Monitor :=
  if deviceName = "" then m
  else
    let fsList := m.supportedFileSystems
    if ¬ fsList.contains type then m
    else
      let arguments : QVariantHash := []
      let arguments := arguments.insert "label" (QVariant.str label)
      let arguments := arguments.insert "no-block" (QVariant.bool true)
      let arguments := arguments.insert "update-partition-type" (QVariant.bool true)
      let affectedPartions :=
        lookupPartitions m.partitions [] [UDISKS2_BLOCK_DEVICE_PATH deviceName]
      formatScan m deviceName type arguments affectedPartions

/-- The handler connected to `UDisks2::Block::mountPathChanged` in `addBlockDevice`, run for
the block that sent the signal. -/
def mountPathChanged (m : Monitor) (block : Block) : Monitor :=
  let m := m.blockSignals true
  let tmpJob :=
    Job.create
      (if block.mountPath = "" then UDISKS2_JOB_OP_FS_UNMOUNT else UDISKS2_JOB_OP_FS_MOUNT)
      [block.path]
  let tmpJob := tmpJob.complete true
  let m := updatePartitionStatus m tmpJob true
  let m := m.blockSignals false
  let m := updatePartitionProperties m block
  match m.operationQueue with
  | [] => m
  | op :: rest =>
    if op.command = "format" ∧ block.mountPath = "" then
      doFormat { m with operationQueue := rest } op.deviceName op.type op.arguments
    else m

/-- State of the `QDBusPendingCallWatcher` handed to a completion handler. -/
structure Watcher where
  isValid : Bool
  isFinished : Bool
  isError : Bool
  errorName : String
  deriving DecidableEq, Repr

/-- The handler connected to `QDBusPendingCallWatcher::finished` in `startMountOperation`. -/
def mountOperationFinished (m : Monitor) (dbusMethod : DBusMethod) (deviceName : String)
    (watcher : Watcher) : Monitor :=
  if watcher.isValid ∧ watcher.isFinished then
    if dbusMethod = DBusMethod.FilesystemMount then
      m.emit (Signal.status deviceName Status.Mounted)
    else
      m.emit (Signal.status deviceName Status.Unmounted)
  else if watcher.isError then
    let m :=
      match lookupError dbus_error_entries watcher.errorName with
      | some errorCode =>
        if dbusMethod = DBusMethod.FilesystemMount then m.emit (Signal.mountError errorCode)
        else m.emit (Signal.unmountError errorCode)
      | none => m
    if UDISKS2_ERROR_ALREADY_UNMOUNTING = watcher.errorName then m
    else if UDISKS2_ERROR_ALREADY_MOUNTED = watcher.errorName then
      m.emit (Signal.status deviceName Status.Mounted)
    else if dbusMethod = DBusMethod.FilesystemUnmount then
      m.emit (Signal.status deviceName Status.Mounted)
    else if dbusMethod = DBusMethod.FilesystemMount then
      m.emit (Signal.status deviceName Status.Unmounted)
    else m
  else m

/-- The handler connected to `QDBusPendingCallWatcher::finished` in `doFormat`. -/
def formatFinished (m : Monitor) (deviceName : String) (watcher : Watcher) : Monitor :=
  if watcher.isValid ∧ watcher.isFinished then
    m.emit (Signal.status deviceName Status.Formatted)
  else if watcher.isError then
    match lookupError dbus_error_entries watcher.errorName with
    | some errorCode => m.emit (Signal.formatError errorCode)
    | none => m
  else m

/-! ## Events -/

/-- The events the monitor processes, one at a time, each by the member function or handler
named.  `jobUpdate` is `updatePartitionStatus(job, success)`, run by `interfacesAdded` for a
new job (with success) and by the handler of `Job::completed`; `blockUpdated` is
`updatePartitionProperties(block)`, run by `addBlockDevice` for a block with data and by the
handler of `Block::blockUpdated`. -/
inductive Event where
  | jobUpdate (job : Job) (success : Bool)
  | blockUpdated (block : Block)
  | mountPathChanged (block : Block)
  | mount (deviceName : String)
  | unmount (deviceName : String)
  | format (deviceName : String) (type : String) (label : String)
  | mountOperationFinished (dbusMethod : DBusMethod) (deviceName : String) (watcher : Watcher)
  | formatFinished (deviceName : String) (watcher : Watcher)
  deriving DecidableEq, Repr

/-- The monitor processing one event. -/
def Monitor.handle (m : Monitor) : Event → Monitor
  | Event.jobUpdate job success => updatePartitionStatus m job success
  | Event.blockUpdated block => updatePartitionProperties m block
  | Event.mountPathChanged block => UDisks2.mountPathChanged m block
  | Event.mount deviceName => UDisks2.mount m deviceName
  | Event.unmount deviceName => UDisks2.unmount m deviceName
  | Event.format deviceName type label => UDisks2.format m deviceName type label
  | Event.mountOperationFinished dbusMethod deviceName watcher =>
    UDisks2.mountOperationFinished m dbusMethod deviceName watcher
  | Event.formatFinished deviceName watcher => UDisks2.formatFinished m deviceName watcher

/-- The monitor processing a sequence of events in arrival order. -/
def Monitor.run (m : Monitor) (events : List Event) : Monitor :=
  events.foldl Monitor.handle m

/-- Whether an event writes to a partition with the given device name and device path: a
Mount, Unmount or Format job with a target object that resolves to the name, a property
reconciliation for a block with that device path, or a mount path change of a block whose
object path resolves to the name or whose device is the path. -/
def Event.reaches (deviceName devicePath : String) : Event → Prop
  | Event.jobUpdate job _ =>
    job.operation ≠ JobOperation.Unknown ∧
      ∃ object ∈ job.objects, QString.section object '/' 5 = deviceName
  | Event.blockUpdated block => devicePath = block.device
  | Event.mountPathChanged block =>
    QString.section block.path '/' 5 = deviceName ∨ devicePath = block.device
  | _ => False

/-! ## userinfo.cpp -/

/-- `QString::indexOf(",")` for a one-character needle: the position of its first occurrence,
or -1 when there is none. -/
def QString.indexOf (c : Char) : List Char → Int
  | [] => -1
  | x :: xs =>
    if x = c then 0
    else
      let i := QString.indexOf c xs
      if i = -1 then -1 else i + 1

/-- `nameFromGecos(gecos)`; the argument is the GECOS field as decoded by
`QString::fromUtf8`. -/
def nameFromGecos (gecos : String) : String :=
  let name := gecos
  let i := QString.indexOf ',' name.data
  if i ≠ -1 then String.mk (name.data.take i.toNat)
  else name

/-! ## The words of the specification -/

/-- The '/'-separated segment of an object path at a fixed index, as the specification words
target resolution: field `n` of the path, when the path has that many fields. -/
def segmentAt (object : String) (n : Nat) : Option String :=
  ((splitFields '/' object.data)[n]?).map String.mk

/-! ## Auxiliary definitions used to reason about the loops -/

/-- One loop iteration that rewrites the partition at index `i` with `f` and hands it to
`m_manager->refresh` when its status changed: the common shape of the two loops of
`updatePartitionStatus`. -/
def visitPartition (f : Partition → Partition) (m : Monitor) (i : Nat) : Monitor :=
  match m.partitions[i]? with
  | none => m
  | some partition =>
    let m1 := { m with partitions := m.partitions.set i (f partition) }
    if partition.status ≠ (f partition).status then m1.refresh i else m1

/-- What the mount/unmount loop writes to a partition when the local `operation` still is
the operation of the job. -/
def mountUnmountResult (job : Job) (success : Bool) (partition : Partition) : Partition :=
  (mountUnmountStep job success job.operation partition).2

/-- Values the local variable `operation` of the mount/unmount loop can hold: the operation
of the job, or `Mount` once a completed busy unmount has overwritten it. -/
def operationInv (job : Job) (success : Bool) (operation : JobOperation) : Prop :=
  operation = job.operation ∨
    (operation = JobOperation.Mount ∧ job.operation = JobOperation.Unmount ∧
      job.deviceBusy = true ∧ success = true ∧ job.status = JobStatus.Completed)

/-- What `updatePartitionStatus` writes to an affected partition: the result of the mount/unmount
loop, of the format loop, or nothing for another operation. -/
def jobResult (job : Job) (success : Bool) (partition : Partition) : Partition :=
  match job.operation with
  | JobOperation.Mount => mountUnmountResult job success partition
  | JobOperation.Unmount => mountUnmountResult job success partition
  | JobOperation.Format => formatStep job success partition
  | JobOperation.Unknown => partition

/-- The argument hash `format` builds for a label. -/
def formatArguments (label : String) : QVariantHash :=
  [("label", QVariant.str label), ("no-block", QVariant.bool true),
   ("update-partition-type", QVariant.bool true)]

/-- What `updatePartitionProperties` writes to a partition: the fields copied from the block
when the device path of the partition is the device of the block, nothing otherwise. -/
def propertiesResult (supportedFileSystems : List String) (blockDevice : Block)
    (partition : Partition) : Partition :=
  if partition.devicePath = blockDevice.device then
    { partition with
      devicePath := blockDevice.device,
      mountPath := blockDevice.mountPath,
      deviceLabel := if blockDevice.idLabel = "" then blockDevice.idUUID
                     else blockDevice.idLabel,
      filesystemType := blockDevice.idType,
      readOnly := blockDevice.isReadOnly,
      canMount := blockDevice.hintAuto && !(decide (blockDevice.idType = ""))
                    && supportedFileSystems.contains blockDevice.idType,
      valid := true }
  else partition

/-- Whether the partition at index `i` has the device of the block as its device path. -/
def matchesBlock (blockDevice : Block) (partitions : List Partition) (i : Nat) : Bool :=
  (partitions[i]?).any (fun partition => decide (partition.devicePath = blockDevice.device))

/-! ## Concrete states used to instantiate the theorems -/

/-- Object path of the block device "sda1". -/
def sda1Path : String := "/org/freedesktop/UDisks2/block_devices/sda1"

/-- Object path of the block device "sdb1". -/
def sdb1Path : String := "/org/freedesktop/UDisks2/block_devices/sdb1"

/-- Partition "sda1", not mounted, with a failed mount recorded and no property refresh yet. -/
def sda1Unmounted : Partition :=
  { deviceName := "sda1", devicePath := "/dev/sda1", mountPath := "", deviceLabel := "",
    filesystemType := "vfat", readOnly := false, canMount := true,
    status := Status.Unmounted, activeState := "inactive", mountFailed := true, valid := false }

/-- Partition "sda1", mounted. -/
def sda1Mounted : Partition :=
  { deviceName := "sda1", devicePath := "/dev/sda1", mountPath := "/run/media/sda1",
    deviceLabel := "card", filesystemType := "vfat", readOnly := false, canMount := true,
    status := Status.Mounted, activeState := "active", mountFailed := false, valid := true }

/-- Partition "sdb1", mounted. -/
def sdb1Mounted : Partition :=
  { deviceName := "sdb1", devicePath := "/dev/sdb1", mountPath := "/run/media/sdb1",
    deviceLabel := "stick", filesystemType := "ext4", readOnly := false, canMount := true,
    status := Status.Mounted, activeState := "active", mountFailed := false, valid := true }

/-- A monitor that tracks the given partitions, supports vfat and ext4, and has an empty
operation queue and empty traces. -/
def monitorOf (partitions : List Partition) : Monitor :=
  { partitions := partitions, supportedFileSystems := ["vfat", "ext4"], operationQueue := [],
    managerSignalsBlocked := false, calls := [], signals := [], refreshCalls := [] }

/-- Block "sdb1" once its mount path has become empty. -/
def sdb1BlockUnmounted : Block :=
  { path := sdb1Path, device := "/dev/sdb1", mountPath := "", idLabel := "stick",
    idUUID := "0000-0001", idType := "ext4", isReadOnly := false, hintAuto := true }

/-- Block "sda1" once its mount path has become empty. -/
def sda1BlockUnmounted : Block :=
  { path := sda1Path, device := "/dev/sda1", mountPath := "", idLabel := "card",
    idUUID := "0000-0000", idType := "vfat", isReadOnly := false, hintAuto := true }

/-! ## Lemmas: splitting object paths -/

theorem splitFields_ne_nil (sep : Char) (s : List Char) : splitFields sep s ≠ [] := by
  induction s with
  | nil => simp [splitFields]
  | cons c cs ih =>
    unfold splitFields
    split
    · simp
    · split <;> simp

theorem splitFields_append_sep (sep : Char) (a s : List Char) :
    splitFields sep (a ++ sep :: s) = splitFields sep a ++ splitFields sep s := by
  induction a with
  | nil => simp [splitFields]
  | cons c cs ih =>
    by_cases hc : c = sep
    · simp [splitFields, hc, ih]
    · obtain ⟨f, fs, hf⟩ := List.exists_cons_of_ne_nil (splitFields_ne_nil sep cs)
      simp [splitFields, hc, ih, hf]

theorem joinFields_cons_of_ne_nil (sep : Char) (f : List Char) (fs : List (List Char))
    (h : fs ≠ []) : joinFields sep (f :: fs) = f ++ sep :: joinFields sep fs := by
  cases fs with
  | nil => exact absurd rfl h
  | cons g gs => rfl

theorem joinFields_splitFields (sep : Char) (s : List Char) :
    joinFields sep (splitFields sep s) = s := by
  induction s with
  | nil => rfl
  | cons c cs ih =>
    by_cases hc : c = sep
    · simp [splitFields, hc, joinFields_cons_of_ne_nil sep [] _ (splitFields_ne_nil sep cs), ih]
    · obtain ⟨f, fs, hf⟩ := List.exists_cons_of_ne_nil (splitFields_ne_nil sep cs)
      rw [hf] at ih
      simp only [splitFields, hc, if_false, hf]
      cases fs with
      | nil =>
        simp only [joinFields] at ih ⊢
        rw [ih]
      | cons g gs =>
        simp only [joinFields] at ih ⊢
        rw [← ih]
        rfl

/-- The device name is recovered from the object path `format` builds for it. -/
theorem section_block_device_path (deviceName : String) :
    QString.section (UDISKS2_BLOCK_DEVICE_PATH deviceName) '/' 5 = deviceName := by
  have hsplit : splitFields '/' (UDISKS2_BLOCK_DEVICE_PATH deviceName).data
      = [[], "org".data, "freedesktop".data, "UDisks2".data, "block_devices".data]
          ++ splitFields '/' deviceName.data := by
    have h1 : (UDISKS2_BLOCK_DEVICE_PATH deviceName).data
        = "/org/freedesktop/UDisks2/block_devices".data ++ '/' :: deviceName.data := by
      unfold UDISKS2_BLOCK_DEVICE_PATH
      rw [String.data_append]
      rfl
    rw [h1, splitFields_append_sep]
    rfl
  have hlen : ¬ (5 ≥ (splitFields '/' (UDISKS2_BLOCK_DEVICE_PATH deviceName).data).length) := by
    rw [hsplit]
    have := List.length_pos.mpr (splitFields_ne_nil '/' deviceName.data)
    simp only [List.length_append, List.length_cons, List.length_nil]
    omega
  unfold QString.section
  simp only [hlen, if_false]
  rw [hsplit]
  simp only [List.drop_append_of_le_length, List.length_cons, List.length_nil]
  show String.mk (joinFields '/' (splitFields '/' deviceName.data)) = deviceName
  rw [joinFields_splitFields]

/-! ## Lemmas: resolving the targets of a job -/

theorem mem_matchingPartitions (partitions : List Partition) (deviceName : String) (i : Nat) :
    i ∈ matchingPartitions partitions deviceName ↔
      ∃ p, partitions[i]? = some p ∧ p.deviceName = deviceName := by
  unfold matchingPartitions
  rw [List.mem_filter, List.mem_range]
  constructor
  · rintro ⟨hlt, hany⟩
    rw [List.getElem?_eq_getElem hlt] at hany
    exact ⟨partitions[i], List.getElem?_eq_getElem hlt, by simpa using hany⟩
  · rintro ⟨p, hp, hname⟩
    have hlt : i < partitions.length := by
      by_contra hge
      rw [List.getElem?_eq_none (Nat.le_of_not_lt hge)] at hp
      exact Option.noConfusion hp
    refine ⟨hlt, ?_⟩
    rw [hp]
    simpa using hname

theorem mem_lookupPartitions (partitions : List Partition) (affected : List Nat)
    (objects : List String) (i : Nat) :
    i ∈ lookupPartitions partitions affected objects ↔
      i ∈ affected ∨
        ∃ object ∈ objects, ∃ p, partitions[i]? = some p ∧
          p.deviceName = QString.section object '/' 5 := by
  unfold lookupPartitions
  induction objects generalizing affected with
  | nil => simp
  | cons object rest ih =>
    rw [List.foldl_cons, ih, List.mem_append, mem_matchingPartitions]
    simp only [List.mem_cons, exists_eq_or_imp]
    exact or_assoc

/-- The targets of a job depend on the partitions only through their names. -/
theorem lookupPartitions_congr (ps qs : List Partition) (affected : List Nat)
    (objects : List String) (h : ps.map (fun p => p.deviceName) = qs.map (fun p => p.deviceName)) :
    lookupPartitions ps affected objects = lookupPartitions qs affected objects := by
  have hlen : ps.length = qs.length := by
    simpa using congrArg List.length h
  have hmatch : ∀ name, matchingPartitions ps name = matchingPartitions qs name := by
    intro name
    unfold matchingPartitions
    rw [hlen]
    apply List.filter_congr
    intro i hi
    have hi2 : i < qs.length := List.mem_range.mp hi
    have hi1 : i < ps.length := hlen ▸ hi2
    have hget : (ps.map (fun p => p.deviceName))[i]? = (qs.map (fun p => p.deviceName))[i]? := by
      rw [h]
    rw [List.getElem?_map, List.getElem?_map, List.getElem?_eq_getElem hi1,
      List.getElem?_eq_getElem hi2] at hget
    rw [List.getElem?_eq_getElem hi1, List.getElem?_eq_getElem hi2]
    simp only [Option.map, Option.some.injEq] at hget
    simp [hget]
  unfold lookupPartitions
  induction objects generalizing affected with
  | nil => rfl
  | cons object rest ih =>
    rw [List.foldl_cons, List.foldl_cons, hmatch, ih]

/-! ## Lemmas: one loop iteration and a whole loop -/

theorem visitPartition_getElem? (f : Partition → Partition) (m : Monitor) (i j : Nat) :
    (visitPartition f m i).partitions[j]? =
      if j = i then (m.partitions[j]?).map f else m.partitions[j]? := by
  unfold visitPartition
  cases hget : m.partitions[i]? with
  | none =>
    by_cases hji : j = i
    · subst hji
      simp [hget]
    · simp [hji]
  | some p =>
    have hlt : i < m.partitions.length := by
      by_contra hge
      rw [List.getElem?_eq_none (Nat.le_of_not_lt hge)] at hget
      exact Option.noConfusion hget
    by_cases hji : j = i
    · subst hji
      by_cases hst : p.status = (f p).status
      · simp [hst, hget, Monitor.refresh, List.getElem?_set, hlt]
      · simp [hst, hget, Monitor.refresh, List.getElem?_set, hlt]
    · have hij : i ≠ j := fun h => hji h.symm
      by_cases hst : p.status = (f p).status
      · simp [hst, hji, Monitor.refresh, List.getElem?_set, hij]
      · simp [hst, hji, Monitor.refresh, List.getElem?_set, hij]

theorem visitPartition_frame (f : Partition → Partition) (m : Monitor) (i : Nat) :
    (visitPartition f m i).supportedFileSystems = m.supportedFileSystems ∧
    (visitPartition f m i).operationQueue = m.operationQueue ∧
    (visitPartition f m i).managerSignalsBlocked = m.managerSignalsBlocked ∧
    (visitPartition f m i).calls = m.calls ∧
    (visitPartition f m i).signals = m.signals := by
  unfold visitPartition
  cases m.partitions[i]? with
  | none => simp
  | some p =>
    by_cases hst : p.status = (f p).status <;> simp [hst, Monitor.refresh]

theorem visitPartition_refreshCalls (f : Partition → Partition) (m : Monitor) (i : Nat) :
    (visitPartition f m i).refreshCalls =
      m.refreshCalls ++
        (if (m.partitions[i]?).any (fun p => decide (p.status ≠ (f p).status)) then [i]
         else []) := by
  unfold visitPartition
  cases m.partitions[i]? with
  | none => simp
  | some p =>
    by_cases hst : p.status = (f p).status <;> simp [hst, Monitor.refresh]

/-- The partitions after a loop over `idxs` that rewrites with an idempotent `f`. -/
theorem foldl_visitPartition_getElem? (f : Partition → Partition)
    (hf : ∀ p, f (f p) = f p) (idxs : List Nat) (m : Monitor) (j : Nat) :
    (idxs.foldl (visitPartition f) m).partitions[j]? =
      if j ∈ idxs then (m.partitions[j]?).map f else m.partitions[j]? := by
  induction idxs generalizing m with
  | nil => simp
  | cons i rest ih =>
    rw [List.foldl_cons, ih, visitPartition_getElem?]
    by_cases hji : j = i
    · subst hji
      by_cases hr : j ∈ rest
      · cases m.partitions[j]? <;> simp [hr, hf]
      · simp [hr]
    · by_cases hr : j ∈ rest <;> simp [hr, hji]

theorem foldl_visitPartition_frame (f : Partition → Partition) (idxs : List Nat) (m : Monitor) :
    (idxs.foldl (visitPartition f) m).supportedFileSystems = m.supportedFileSystems ∧
    (idxs.foldl (visitPartition f) m).operationQueue = m.operationQueue ∧
    (idxs.foldl (visitPartition f) m).managerSignalsBlocked = m.managerSignalsBlocked ∧
    (idxs.foldl (visitPartition f) m).calls = m.calls ∧
    (idxs.foldl (visitPartition f) m).signals = m.signals := by
  induction idxs generalizing m with
  | nil => simp
  | cons i rest ih =>
    rw [List.foldl_cons]
    obtain ⟨h1, h2, h3, h4, h5⟩ := ih (visitPartition f m i)
    obtain ⟨g1, g2, g3, g4, g5⟩ := visitPartition_frame f m i
    exact ⟨h1.trans g1, h2.trans g2, h3.trans g3, h4.trans g4, h5.trans g5⟩

/-- The refresh calls of a loop over `idxs`: each partition whose status the loop changes is
refreshed once, and no other partition is. -/
theorem foldl_visitPartition_refreshCalls (f : Partition → Partition)
    (hf : ∀ p, f (f p) = f p) (idxs : List Nat) (m : Monitor) :
    ∃ fired, (idxs.foldl (visitPartition f) m).refreshCalls = m.refreshCalls ++ fired ∧
      fired.Nodup ∧
      ∀ j, j ∈ fired ↔
        j ∈ idxs ∧ ∃ p, m.partitions[j]? = some p ∧ p.status ≠ (f p).status := by
  induction idxs generalizing m with
  | nil => exact ⟨[], by simp⟩
  | cons i rest ih =>
    obtain ⟨fired, hcalls, hnodup, hmem⟩ := ih (visitPartition f m i)
    have hnot : i ∉ fired := by
      intro hi
      obtain ⟨_, p, hp, hne⟩ := (hmem i).mp hi
      rw [visitPartition_getElem?] at hp
      simp only [if_true] at hp
      cases hq : m.partitions[i]? with
      | none => rw [hq] at hp; exact Option.noConfusion hp
      | some q =>
        rw [hq] at hp
        simp only [Option.map, Option.some.injEq] at hp
        subst hp
        exact hne (by rw [hf])
    have hother : ∀ j, j ≠ i → (j ∈ fired ↔
        j ∈ rest ∧ ∃ p, m.partitions[j]? = some p ∧ p.status ≠ (f p).status) := by
      intro j hji
      rw [hmem j, visitPartition_getElem?]
      simp [hji]
    rw [List.foldl_cons, hcalls, visitPartition_refreshCalls]
    cases hq : m.partitions[i]? with
    | none =>
      refine ⟨fired, by simp, hnodup, ?_⟩
      intro j
      by_cases hji : j = i
      · subst hji
        simp [hnot, hq]
      · rw [hother j hji]
        simp [hji]
    | some q =>
      by_cases hst : q.status = (f q).status
      · refine ⟨fired, by simp [hst], hnodup, ?_⟩
        intro j
        by_cases hji : j = i
        · subst hji
          simp [hnot, hq, hst]
        · rw [hother j hji]
          simp [hji]
      · refine ⟨i :: fired, by simp [hst], List.nodup_cons.mpr ⟨hnot, hnodup⟩, ?_⟩
        intro j
        by_cases hji : j = i
        · subst hji
          simp [hq, hst]
        · rw [List.mem_cons, hother j hji]
          simp [hji]

/-! ## Lemmas: `updatePartitionStatus` as a loop over the affected partitions -/

theorem formatLoop_eq_visit (job : Job) (success : Bool) :
    formatLoop job success = visitPartition (formatStep job success) := by
  funext m i
  unfold formatLoop visitPartition
  cases m.partitions[i]? <;> rfl

theorem mountUnmountStep_inv (job : Job) (success : Bool) (operation : JobOperation)
    (p : Partition) (h : operationInv job success operation) :
    (mountUnmountStep job success operation p).2 = mountUnmountResult job success p ∧
      operationInv job success (mountUnmountStep job success operation p).1 := by
  unfold operationInv at h
  rcases h with h | ⟨h1, h2, h3, h4, h5⟩
  · subst h
    refine ⟨rfl, ?_⟩
    unfold operationInv mountUnmountStep
    cases success
    · simp
    · cases hs : job.status
      · simp
      · by_cases hb : job.deviceBusy = true ∧ job.operation = JobOperation.Unmount
        · right
          simp [hb]
        · left
          simp [hb]
  · subst h1
    constructor
    · unfold mountUnmountResult mountUnmountStep
      simp [h2, h3, h4, h5]
    · right
      unfold mountUnmountStep
      simp [h2, h3, h4, h5]

theorem foldl_mountUnmountLoop (job : Job) (success : Bool) (idxs : List Nat)
    (operation : JobOperation) (m : Monitor) (h : operationInv job success operation) :
    (idxs.foldl (mountUnmountLoop job success) (operation, m)).2 =
      idxs.foldl (visitPartition (mountUnmountResult job success)) m := by
  induction idxs generalizing operation m with
  | nil => rfl
  | cons i rest ih =>
    rw [List.foldl_cons, List.foldl_cons]
    cases hp : m.partitions[i]? with
    | none =>
      have h1 : mountUnmountLoop job success (operation, m) i = (operation, m) := by
        unfold mountUnmountLoop
        simp [hp]
      have h2 : visitPartition (mountUnmountResult job success) m i = m := by
        unfold visitPartition
        simp [hp]
      rw [h1, h2]
      exact ih operation m h
    | some p =>
      obtain ⟨hres, hinv⟩ := mountUnmountStep_inv job success operation p h
      have h1 : mountUnmountLoop job success (operation, m) i =
          ((mountUnmountStep job success operation p).1,
            visitPartition (mountUnmountResult job success) m i) := by
        unfold mountUnmountLoop visitPartition
        simp only [hp, hres]
      rw [h1]
      exact ih _ _ hinv

theorem visitPartition_fixed (g : Partition → Partition) (m : Monitor) (i : Nat)
    (hg : ∀ p, m.partitions[i]? = some p → g p = p) : visitPartition g m i = m := by
  unfold visitPartition
  cases hp : m.partitions[i]? with
  | none => rfl
  | some p =>
    have hlt : i < m.partitions.length := by
      by_contra hge
      rw [List.getElem?_eq_none (Nat.le_of_not_lt hge)] at hp
      exact Option.noConfusion hp
    have hset : m.partitions.set i p = m.partitions := by
      apply List.ext_getElem?
      intro j
      rw [List.getElem?_set]
      by_cases hij : i = j
      · subst hij
        simp [hlt, hp]
      · simp [hij]
    simp [hg p hp, hset]

theorem foldl_visitPartition_fixed (g : Partition → Partition) (idxs : List Nat) (m : Monitor)
    (hg : ∀ i ∈ idxs, ∀ p, m.partitions[i]? = some p → g p = p) :
    idxs.foldl (visitPartition g) m = m := by
  induction idxs with
  | nil => rfl
  | cons i rest ih =>
    rw [List.foldl_cons, visitPartition_fixed g m i (hg i (List.mem_cons_self i rest))]
    exact ih (fun j hj => hg j (List.mem_cons_of_mem i hj))

theorem foldl_visitPartition_id (g : Partition → Partition) (hg : ∀ p, g p = p)
    (idxs : List Nat) (m : Monitor) : idxs.foldl (visitPartition g) m = m :=
  foldl_visitPartition_fixed g idxs m (fun _ _ p _ => hg p)

/-- The whole of `updatePartitionStatus` is one loop over the affected partitions that
rewrites each of them with `jobResult`. -/
theorem updatePartitionStatus_eq_foldl (m : Monitor) (job : Job) (success : Bool) :
    updatePartitionStatus m job success =
      (lookupPartitions m.partitions [] job.objects).foldl
        (visitPartition (jobResult job success)) m := by
  unfold updatePartitionStatus
  cases hop : job.operation with
  | Mount =>
    have hf : jobResult job success = mountUnmountResult job success := by
      funext p; simp [jobResult, hop]
    simp only [true_or, if_true]
    rw [hf, ← hop, foldl_mountUnmountLoop job success _ _ _ (Or.inl rfl)]
  | Unmount =>
    have hf : jobResult job success = mountUnmountResult job success := by
      funext p; simp [jobResult, hop]
    simp only [or_true, if_true]
    rw [hf, ← hop, foldl_mountUnmountLoop job success _ _ _ (Or.inl rfl)]
  | Format =>
    have hf : jobResult job success = formatStep job success := by
      funext p; simp [jobResult, hop]
    rw [hf, formatLoop_eq_visit]
    simp
  | Unknown =>
    have hf : ∀ p, jobResult job success p = p := by
      intro p; simp [jobResult, hop]
    rw [foldl_visitPartition_id _ hf]
    simp

theorem jobResult_idem (job : Job) (success : Bool) (p : Partition) :
    jobResult job success (jobResult job success p) = jobResult job success p := by
  unfold jobResult
  cases job.operation with
  | Mount => simp only [mountUnmountResult, mountUnmountStep]; split <;> [split; skip] <;> rfl
  | Unmount => simp only [mountUnmountResult, mountUnmountStep]; split <;> [split; skip] <;> rfl
  | Format => simp only [formatStep]; split <;> [split; skip] <;> rfl
  | Unknown => rfl

theorem jobResult_deviceName (job : Job) (success : Bool) (p : Partition) :
    (jobResult job success p).deviceName = p.deviceName := by
  unfold jobResult
  cases job.operation with
  | Mount => simp only [mountUnmountResult, mountUnmountStep]; split <;> [split; skip] <;> rfl
  | Unmount => simp only [mountUnmountResult, mountUnmountStep]; split <;> [split; skip] <;> rfl
  | Format => simp only [formatStep]; split <;> [split; skip] <;> rfl
  | Unknown => rfl

/-- The partitions after `updatePartitionStatus`: an affected partition is rewritten with
`jobResult`, every other partition is as before. -/
theorem updatePartitionStatus_getElem? (m : Monitor) (job : Job) (success : Bool) (j : Nat) :
    (updatePartitionStatus m job success).partitions[j]? =
      if j ∈ lookupPartitions m.partitions [] job.objects
      then (m.partitions[j]?).map (jobResult job success) else m.partitions[j]? := by
  rw [updatePartitionStatus_eq_foldl]
  exact foldl_visitPartition_getElem? _ (jobResult_idem job success) _ m j

theorem updatePartitionStatus_frame (m : Monitor) (job : Job) (success : Bool) :
    (updatePartitionStatus m job success).supportedFileSystems = m.supportedFileSystems ∧
    (updatePartitionStatus m job success).operationQueue = m.operationQueue ∧
    (updatePartitionStatus m job success).managerSignalsBlocked = m.managerSignalsBlocked ∧
    (updatePartitionStatus m job success).calls = m.calls ∧
    (updatePartitionStatus m job success).signals = m.signals := by
  rw [updatePartitionStatus_eq_foldl]
  exact foldl_visitPartition_frame _ _ m

/-- Names are not written by `updatePartitionStatus`, so a job has the same targets after an
update as before it. -/
theorem lookupPartitions_updatePartitionStatus (m : Monitor) (job : Job) (success : Bool)
    (objects : List String) :
    lookupPartitions (updatePartitionStatus m job success).partitions [] objects =
      lookupPartitions m.partitions [] objects := by
  apply lookupPartitions_congr
  apply List.ext_getElem?
  intro j
  rw [List.getElem?_map, List.getElem?_map, updatePartitionStatus_getElem?]
  split
  · cases m.partitions[j]? with
    | none => rfl
    | some p => simp [jobResult_deviceName]
  · rfl

/-- A partition whose name is the device name of one of the job's target objects is among
the affected partitions. -/
theorem affected_of_target (partitions : List Partition) (objects : List String) (i : Nat)
    (P : Partition) (hP : partitions[i]? = some P)
    (ht : ∃ object ∈ objects, QString.section object '/' 5 = P.deviceName) :
    i ∈ lookupPartitions partitions [] objects := by
  obtain ⟨object, hmem, hsec⟩ := ht
  rw [mem_lookupPartitions]
  exact Or.inr ⟨object, hmem, P, hP, hsec.symm⟩

theorem updatePartitionStatus_affected (m : Monitor) (job : Job) (success : Bool) (i : Nat)
    (P : Partition) (hP : m.partitions[i]? = some P)
    (ht : ∃ object ∈ job.objects, QString.section object '/' 5 = P.deviceName) :
    (updatePartitionStatus m job success).partitions[i]? = some (jobResult job success P) := by
  rw [updatePartitionStatus_getElem?, if_pos (affected_of_target _ _ i P hP ht), hP]
  rfl

/-! ## The partition state machine -/

/-- C1: for a tracked partition `P` (at index `i`) and a Mount job whose target objects
resolve to the device name of `P`, the update for the job-added event (status `Added`,
success) followed by the update for the job-completed event (status `Completed`, success)
leaves `P` with status `Mounted`, activeState "active" and mountFailed false, whatever `P`
held before.  `jobAdded` and `jobCompleted` are the job as the monitor reads it at the two
events. -/
theorem mount_added_then_completed (m : Monitor) (jobAdded jobCompleted : Job) (i : Nat)
    (P : Partition) (hP : m.partitions[i]? = some P)
    (_hAop : jobAdded.operation = JobOperation.Mount)
    (_hAst : jobAdded.status = JobStatus.Added)
    (hCop : jobCompleted.operation = JobOperation.Mount)
    (hCst : jobCompleted.status = JobStatus.Completed)
    (hAt : ∃ object ∈ jobAdded.objects, QString.section object '/' 5 = P.deviceName)
    (hCt : ∃ object ∈ jobCompleted.objects, QString.section object '/' 5 = P.deviceName) :
    ∃ Q, (updatePartitionStatus (updatePartitionStatus m jobAdded true)
            jobCompleted true).partitions[i]? = some Q ∧
      Q.status = Status.Mounted ∧ Q.activeState = "active" ∧ Q.mountFailed = false := by
  have h1 := updatePartitionStatus_affected m jobAdded true i P hP hAt
  have hname : (jobResult jobAdded true P).deviceName = P.deviceName :=
    jobResult_deviceName jobAdded true P
  have h2 := updatePartitionStatus_affected (updatePartitionStatus m jobAdded true)
    jobCompleted true i _ h1 (by rw [hname]; exact hCt)
  refine ⟨_, h2, ?_, ?_, ?_⟩ <;>
    simp [jobResult, hCop, mountUnmountResult, mountUnmountStep, hCst]

/-- C1, at a concrete input: partition "sda1" while unmounted and one Mount job on it. -/
theorem mount_added_then_completed_witness :
    ∃ Q, (updatePartitionStatus
            (updatePartitionStatus (monitorOf [sda1Unmounted])
              ⟨JobOperation.Mount, [sda1Path], JobStatus.Added, false⟩ true)
            ⟨JobOperation.Mount, [sda1Path], JobStatus.Completed, false⟩ true).partitions[0]?
          = some Q ∧
      Q.status = Status.Mounted ∧ Q.activeState = "active" ∧ Q.mountFailed = false :=
  mount_added_then_completed (monitorOf [sda1Unmounted])
    ⟨JobOperation.Mount, [sda1Path], JobStatus.Added, false⟩
    ⟨JobOperation.Mount, [sda1Path], JobStatus.Completed, false⟩
    0 sda1Unmounted rfl rfl rfl rfl rfl
    ⟨sda1Path, by decide, by decide⟩ ⟨sda1Path, by decide, by decide⟩

/-- C2: for a tracked partition `P` (at index `i`) and an Unmount job targeting `P` that
completes with deviceBusy set, the job-added update followed by the job-completed update with
success leaves `P` with status `Mounted` (not `Unmounted`), activeState "active" and
mountFailed false. -/
theorem busy_unmount_added_then_completed (m : Monitor) (jobAdded jobCompleted : Job) (i : Nat)
    (P : Partition) (hP : m.partitions[i]? = some P)
    (_hAop : jobAdded.operation = JobOperation.Unmount)
    (_hAst : jobAdded.status = JobStatus.Added)
    (hCop : jobCompleted.operation = JobOperation.Unmount)
    (hCst : jobCompleted.status = JobStatus.Completed)
    (hbusy : jobCompleted.deviceBusy = true)
    (hAt : ∃ object ∈ jobAdded.objects, QString.section object '/' 5 = P.deviceName)
    (hCt : ∃ object ∈ jobCompleted.objects, QString.section object '/' 5 = P.deviceName) :
    ∃ Q, (updatePartitionStatus (updatePartitionStatus m jobAdded true)
            jobCompleted true).partitions[i]? = some Q ∧
      Q.status = Status.Mounted ∧ Q.status ≠ Status.Unmounted ∧ Q.activeState = "active" ∧
      Q.mountFailed = false := by
  have h1 := updatePartitionStatus_affected m jobAdded true i P hP hAt
  have hname : (jobResult jobAdded true P).deviceName = P.deviceName :=
    jobResult_deviceName jobAdded true P
  have h2 := updatePartitionStatus_affected (updatePartitionStatus m jobAdded true)
    jobCompleted true i _ h1 (by rw [hname]; exact hCt)
  refine ⟨_, h2, ?_, ?_, ?_, ?_⟩ <;>
    simp [jobResult, hCop, mountUnmountResult, mountUnmountStep, hCst, hbusy]

/-- C2, at a concrete input: partition "sda1" while mounted and one busy Unmount job on it. -/
theorem busy_unmount_added_then_completed_witness :
    ∃ Q, (updatePartitionStatus
            (updatePartitionStatus (monitorOf [sda1Mounted])
              ⟨JobOperation.Unmount, [sda1Path], JobStatus.Added, true⟩ true)
            ⟨JobOperation.Unmount, [sda1Path], JobStatus.Completed, true⟩ true).partitions[0]?
          = some Q ∧
      Q.status = Status.Mounted ∧ Q.status ≠ Status.Unmounted ∧ Q.activeState = "active" ∧
      Q.mountFailed = false :=
  busy_unmount_added_then_completed (monitorOf [sda1Mounted])
    ⟨JobOperation.Unmount, [sda1Path], JobStatus.Added, true⟩
    ⟨JobOperation.Unmount, [sda1Path], JobStatus.Completed, true⟩
    0 sda1Mounted rfl rfl rfl rfl rfl rfl
    ⟨sda1Path, by decide, by decide⟩ ⟨sda1Path, by decide, by decide⟩

/-- C3: `updatePartitionStatus` implements the transition table.  For a partition `P` (at
index `i`) affected by the job, the partition after the update has (status, activeState)
equal to: (Mounting, "activating") for (Mount, Added); (Unmounting, "deactivating") for
(Unmount, Added); (Formatting, "inactive") for (Format, Added), the Added rows taken with
success; (Mounted, "failed") for (Mount, Completed, failure); (Unmounted, "inactive") for
(Unmount, Completed, success, not busy); (Unmounted, "failed") for (Unmount, Completed,
failure); (Formatted, "inactive") for (Format, Completed, success); (Unmounted, "failed")
for (Format, Completed, failure). -/
theorem transition_table (m : Monitor) (job : Job) (success : Bool) (i : Nat) (P : Partition)
    (hP : m.partitions[i]? = some P)
    (ht : ∃ object ∈ job.objects, QString.section object '/' 5 = P.deviceName) :
    ∃ Q, (updatePartitionStatus m job success).partitions[i]? = some Q ∧
      (job.operation = JobOperation.Mount → job.status = JobStatus.Added → success = true →
        Q.status = Status.Mounting ∧ Q.activeState = "activating") ∧
      (job.operation = JobOperation.Unmount → job.status = JobStatus.Added → success = true →
        Q.status = Status.Unmounting ∧ Q.activeState = "deactivating") ∧
      (job.operation = JobOperation.Format → job.status = JobStatus.Added → success = true →
        Q.status = Status.Formatting ∧ Q.activeState = "inactive") ∧
      (job.operation = JobOperation.Mount → job.status = JobStatus.Completed →
        success = false → Q.status = Status.Mounted ∧ Q.activeState = "failed") ∧
      (job.operation = JobOperation.Unmount → job.status = JobStatus.Completed →
        success = true → job.deviceBusy = false →
        Q.status = Status.Unmounted ∧ Q.activeState = "inactive") ∧
      (job.operation = JobOperation.Unmount → job.status = JobStatus.Completed →
        success = false → Q.status = Status.Unmounted ∧ Q.activeState = "failed") ∧
      (job.operation = JobOperation.Format → job.status = JobStatus.Completed →
        success = true → Q.status = Status.Formatted ∧ Q.activeState = "inactive") ∧
      (job.operation = JobOperation.Format → job.status = JobStatus.Completed →
        success = false → Q.status = Status.Unmounted ∧ Q.activeState = "failed") := by
  refine ⟨_, updatePartitionStatus_affected m job success i P hP ht, ?_, ?_, ?_, ?_, ?_, ?_, ?_, ?_⟩
  · intro hop hst hs
    simp [jobResult, hop, mountUnmountResult, mountUnmountStep, hst, hs]
  · intro hop hst hs
    simp [jobResult, hop, mountUnmountResult, mountUnmountStep, hst, hs]
  · intro hop hst hs
    simp [jobResult, hop, formatStep, hst, hs]
  · intro hop _ hs
    simp [jobResult, hop, mountUnmountResult, mountUnmountStep, hs]
  · intro hop hst hs hb
    simp [jobResult, hop, mountUnmountResult, mountUnmountStep, hst, hs, hb]
  · intro hop _ hs
    simp [jobResult, hop, mountUnmountResult, mountUnmountStep, hs]
  · intro hop hst hs
    simp [jobResult, hop, formatStep, hst, hs]
  · intro hop _ hs
    simp [jobResult, hop, formatStep, hs]

/-- C3, at a concrete input: a failed Format job on the mounted partition "sda1" (the last
row of the table applies, the other rows hold vacuously). -/
theorem transition_table_witness :
    ∃ Q, (updatePartitionStatus (monitorOf [sda1Mounted])
            ⟨JobOperation.Format, [sda1Path], JobStatus.Completed, false⟩ false).partitions[0]?
          = some Q ∧ Q.status = Status.Unmounted ∧ Q.activeState = "failed" := by
  obtain ⟨Q, hQ, _, _, _, _, _, _, _, h8⟩ :=
    transition_table (monitorOf [sda1Mounted])
      ⟨JobOperation.Format, [sda1Path], JobStatus.Completed, false⟩ false 0 sda1Mounted rfl
      ⟨sda1Path, by decide, by decide⟩
  exact ⟨Q, hQ, h8 rfl rfl rfl⟩

/-- C4: for every job update, `m_manager->refresh(partition)` is called for a partition if and
only if the status of that partition after the update differs from the status it held before
(and then exactly once: the calls made by the update hold no partition twice);
consequently applying the same update (same job, same success flag) a second time leaves the
whole monitor state unchanged: no partition changes and no further refresh call is made. -/
theorem refresh_iff_status_changed (m : Monitor) (job : Job) (success : Bool) :
    (∃ fired, (updatePartitionStatus m job success).refreshCalls = m.refreshCalls ++ fired ∧
      fired.Nodup ∧
      ∀ i, i ∈ fired ↔
        ∃ P Q, m.partitions[i]? = some P ∧
          (updatePartitionStatus m job success).partitions[i]? = some Q ∧
          Q.status ≠ P.status) ∧
    updatePartitionStatus (updatePartitionStatus m job success) job success =
      updatePartitionStatus m job success := by
  constructor
  · obtain ⟨fired, hcalls, hnodup, hmem⟩ :=
      foldl_visitPartition_refreshCalls (jobResult job success) (jobResult_idem job success)
        (lookupPartitions m.partitions [] job.objects) m
    rw [← updatePartitionStatus_eq_foldl] at hcalls
    refine ⟨fired, hcalls, hnodup, ?_⟩
    intro i
    rw [hmem i, updatePartitionStatus_getElem?]
    constructor
    · rintro ⟨haff, P, hP, hne⟩
      refine ⟨P, jobResult job success P, hP, ?_, fun h => hne h.symm⟩
      rw [if_pos haff, hP]
      rfl
    · rintro ⟨P, Q, hP, hQ, hne⟩
      by_cases haff : i ∈ lookupPartitions m.partitions [] job.objects
      · rw [if_pos haff, hP] at hQ
        simp only [Option.map, Option.some.injEq] at hQ
        subst hQ
        exact ⟨haff, P, hP, fun h => hne h.symm⟩
      · rw [if_neg haff, hP] at hQ
        simp only [Option.some.injEq] at hQ
        subst hQ
        exact absurd rfl hne
  · conv_lhs => rw [updatePartitionStatus_eq_foldl]
    rw [lookupPartitions_updatePartitionStatus]
    apply foldl_visitPartition_fixed
    intro i hi Q hQ
    rw [updatePartitionStatus_getElem?, if_pos hi] at hQ
    cases hP : m.partitions[i]? with
    | none => rw [hP] at hQ; exact Option.noConfusion hQ
    | some P =>
      rw [hP] at hQ
      simp only [Option.map, Option.some.injEq] at hQ
      subst hQ
      exact jobResult_idem job success P

/-- C5 as stated fails: a successful, not busy Format job on a partition whose `mountFailed` is
set leaves the flag set, where the claim asks for `!success`, that is false. -/
theorem format_job_mountFailed_counterexample :
    ¬ ∀ (m : Monitor) (job : Job) (success : Bool) (i : Nat) (P Q : Partition),
        m.partitions[i]? = some P →
        (∃ object ∈ job.objects, QString.section object '/' 5 = P.deviceName) →
        (job.operation = JobOperation.Mount ∨ job.operation = JobOperation.Unmount ∨
          job.operation = JobOperation.Format) →
        (updatePartitionStatus m job success).partitions[i]? = some Q →
        Q.mountFailed = (if job.deviceBusy = true then false else !success) := by
  intro h
  have h1 := h (monitorOf [sda1Unmounted])
    ⟨JobOperation.Format, [sda1Path], JobStatus.Completed, false⟩ true 0 sda1Unmounted
    { sda1Unmounted with status := Status.Formatted, valid := true }
    rfl ⟨sda1Path, by decide, by decide⟩ (by decide) (by decide)
  revert h1
  decide

/-- C5, amended: for a partition `P` (at index `i`) affected by the job, after
`updatePartitionStatus` with a Mount or an Unmount job `mountFailed` is false when the job's
deviceBusy flag is set and `!success` otherwise; with a Format job `mountFailed` is what it
was before the update. -/
theorem mountFailed_after_update (m : Monitor) (job : Job) (success : Bool) (i : Nat)
    (P : Partition) (hP : m.partitions[i]? = some P)
    (ht : ∃ object ∈ job.objects, QString.section object '/' 5 = P.deviceName) :
    ∃ Q, (updatePartitionStatus m job success).partitions[i]? = some Q ∧
      (job.operation = JobOperation.Mount ∨ job.operation = JobOperation.Unmount →
        Q.mountFailed = (if job.deviceBusy = true then false else !success)) ∧
      (job.operation = JobOperation.Format → Q.mountFailed = P.mountFailed) := by
  refine ⟨_, updatePartitionStatus_affected m job success i P hP ht, ?_, ?_⟩
  · rintro (hop | hop) <;>
      simp [jobResult, hop, mountUnmountResult, mountUnmountStep]
  · intro hop
    simp only [jobResult, hop, formatStep]
    split <;> [split; skip] <;> rfl

/-- C5 amended, at a concrete input: a failed, not busy Mount job on "sda1". -/
theorem mountFailed_after_update_witness :
    ∃ Q, (updatePartitionStatus (monitorOf [sda1Mounted])
            ⟨JobOperation.Mount, [sda1Path], JobStatus.Completed, false⟩ false).partitions[0]?
          = some Q ∧ Q.mountFailed = true := by
  obtain ⟨Q, hQ, h1, _⟩ :=
    mountFailed_after_update (monitorOf [sda1Mounted])
      ⟨JobOperation.Mount, [sda1Path], JobStatus.Completed, false⟩ false 0 sda1Mounted rfl
      ⟨sda1Path, by decide, by decide⟩
  exact ⟨Q, hQ, h1 (Or.inl rfl)⟩

/-! ## The operation queue -/

theorem unmount_nonempty (m : Monitor) (deviceName : String) (h : deviceName ≠ "") :
    unmount m deviceName =
      { m with
        calls := m.calls ++
          [Call.filesystem DBusMethod.FilesystemUnmount deviceName [("", QVariant.str "")]],
        signals := m.signals ++ [Signal.status deviceName Status.Unmounting] } := by
  unfold unmount startMountOperation
  simp [h, Monitor.emit, QVariantHash.insert]

/-- The loop of `format`: the request is queued and an unmount started when one of the
scanned partitions is mounted, the Format call is sent when none is. -/
theorem formatScan_eq (m : Monitor) (deviceName type : String) (arguments : QVariantHash)
    (idxs : List Nat) :
    formatScan m deviceName type arguments idxs =
      if ∃ i ∈ idxs, ∃ p, m.partitions[i]? = some p ∧ p.status = Status.Mounted then
        unmount
          { m with
            operationQueue :=
              m.operationQueue ++ [Operation.mk "format" deviceName type arguments] }
          deviceName
      else doFormat m deviceName type arguments := by
  induction idxs with
  | nil => simp [formatScan]
  | cons i rest ih =>
    unfold formatScan
    cases hp : m.partitions[i]? with
    | none =>
      simp only [ih, List.mem_cons, exists_eq_or_imp, hp]
      simp
    | some p =>
      by_cases hst : p.status = Status.Mounted
      · simp [hp, hst]
      · simp only [hst, if_false, ih, List.mem_cons, exists_eq_or_imp, hp]
        simp [hst]

theorem format_arguments_eq (label : String) :
    QVariantHash.insert
      (QVariantHash.insert (QVariantHash.insert [] "label" (QVariant.str label))
        "no-block" (QVariant.bool true))
      "update-partition-type" (QVariant.bool true) = formatArguments label := by
  simp [QVariantHash.insert, formatArguments]

/-- The partitions `format` scans for a device name are those tracked under that name. -/
theorem exists_scanned_mounted_iff (m : Monitor) (deviceName : String) :
    (∃ i ∈ lookupPartitions m.partitions [] [UDISKS2_BLOCK_DEVICE_PATH deviceName],
        ∃ p, m.partitions[i]? = some p ∧ p.status = Status.Mounted) ↔
      ∃ p ∈ m.partitions, p.deviceName = deviceName ∧ p.status = Status.Mounted := by
  constructor
  · rintro ⟨i, hi, p, hp, hst⟩
    rw [mem_lookupPartitions] at hi
    rcases hi with hi | ⟨object, hobj, q, hq, hname⟩
    · exact absurd hi (List.not_mem_nil i)
    · rw [List.mem_singleton] at hobj
      subst hobj
      rw [hp] at hq
      simp only [Option.some.injEq] at hq
      subst hq
      rw [section_block_device_path] at hname
      exact ⟨p, List.getElem?_mem hp, hname, hst⟩
  · rintro ⟨p, hmem, hname, hst⟩
    obtain ⟨i, hi⟩ := List.mem_iff_getElem?.mp hmem
    refine ⟨i, ?_, p, hi, hst⟩
    rw [mem_lookupPartitions]
    refine Or.inr ⟨_, List.mem_singleton.mpr rfl, p, hi, ?_⟩
    rw [section_block_device_path]
    exact hname

theorem format_eq_formatScan (m : Monitor) (deviceName type label : String)
    (hname : deviceName ≠ "") (htype : type ∈ m.supportedFileSystems) :
    format m deviceName type label =
      formatScan m deviceName type (formatArguments label)
        (lookupPartitions m.partitions [] [UDISKS2_BLOCK_DEVICE_PATH deviceName]) := by
  have hc : m.supportedFileSystems.contains type = true := by simp [htype]
  unfold format
  simp only [hname, if_false, hc, not_true_eq_false, format_arguments_eq]

/-- A valid format request for a device with a mounted partition is queued and an unmount of
the device is started. -/
theorem format_of_mounted (m : Monitor) (deviceName type label : String)
    (hname : deviceName ≠ "") (htype : type ∈ m.supportedFileSystems)
    (h : ∃ p ∈ m.partitions, p.deviceName = deviceName ∧ p.status = Status.Mounted) :
    format m deviceName type label =
      { m with
        operationQueue :=
          m.operationQueue ++ [Operation.mk "format" deviceName type (formatArguments label)],
        calls := m.calls ++
          [Call.filesystem DBusMethod.FilesystemUnmount deviceName [("", QVariant.str "")]],
        signals := m.signals ++ [Signal.status deviceName Status.Unmounting] } := by
  rw [format_eq_formatScan m deviceName type label hname htype, formatScan_eq,
    if_pos ((exists_scanned_mounted_iff m deviceName).mpr h), unmount_nonempty _ _ hname]

/-- A valid format request for a device without a mounted partition sends the Format call. -/
theorem format_of_not_mounted (m : Monitor) (deviceName type label : String)
    (hname : deviceName ≠ "") (htype : type ∈ m.supportedFileSystems)
    (h : ¬ ∃ p ∈ m.partitions, p.deviceName = deviceName ∧ p.status = Status.Mounted) :
    format m deviceName type label =
      { m with calls := m.calls ++ [Call.format deviceName type (formatArguments label)] } := by
  rw [format_eq_formatScan m deviceName type label hname htype, formatScan_eq,
    if_neg (fun h2 => h ((exists_scanned_mounted_iff m deviceName).mp h2))]
  rfl

/-- C6: for a non-empty device name and a supported filesystem type, `format` does one of two
things.  When some tracked partition with that device name has status `Mounted`, it appends
the entry ("format", name, type, arguments) to the operation queue, sends the Unmount call for
the name (emitting the `Unmounting` status with it) and sends no Format call: the calls
gain the Unmount call only.  Otherwise it sends the Format call for (name, type, arguments)
and leaves the queue, like everything else, unchanged.  The arguments are label, no-block =
true and update-partition-type = true. -/
theorem format_queues_or_calls (m : Monitor) (deviceName type label : String)
    (hname : deviceName ≠ "") (htype : type ∈ m.supportedFileSystems) :
    ((∃ p ∈ m.partitions, p.deviceName = deviceName ∧ p.status = Status.Mounted) →
      format m deviceName type label =
        { m with
          operationQueue :=
            m.operationQueue ++ [Operation.mk "format" deviceName type (formatArguments label)],
          calls := m.calls ++
            [Call.filesystem DBusMethod.FilesystemUnmount deviceName [("", QVariant.str "")]],
          signals := m.signals ++ [Signal.status deviceName Status.Unmounting] }) ∧
    ((¬ ∃ p ∈ m.partitions, p.deviceName = deviceName ∧ p.status = Status.Mounted) →
      format m deviceName type label =
        { m with
          calls := m.calls ++ [Call.format deviceName type (formatArguments label)] }) :=
  ⟨format_of_mounted m deviceName type label hname htype,
    format_of_not_mounted m deviceName type label hname htype⟩

/-- C6, at a concrete input: `format("sda1", "ext4", "Data")` while "sda1" is mounted queues
the request and sends the Unmount call. -/
theorem format_queues_or_calls_witness :
    format (monitorOf [sda1Mounted]) "sda1" "ext4" "Data" =
      { monitorOf [sda1Mounted] with
        operationQueue := [Operation.mk "format" "sda1" "ext4" (formatArguments "Data")],
        calls := [Call.filesystem DBusMethod.FilesystemUnmount "sda1" [("", QVariant.str "")]],
        signals := [Signal.status "sda1" Status.Unmounting] } :=
  (format_queues_or_calls (monitorOf [sda1Mounted]) "sda1" "ext4" "Data" (by decide)
    (by decide)).1 ⟨sda1Mounted, by decide, by decide, by decide⟩

theorem updatePropertiesLoop_frame (blockDevice : Block) (m : Monitor) (i : Nat) :
    (updatePropertiesLoop blockDevice m i).operationQueue = m.operationQueue ∧
    (updatePropertiesLoop blockDevice m i).calls = m.calls ∧
    (updatePropertiesLoop blockDevice m i).signals = m.signals ∧
    (updatePropertiesLoop blockDevice m i).supportedFileSystems = m.supportedFileSystems := by
  unfold updatePropertiesLoop
  cases m.partitions[i]? with
  | none => simp
  | some p =>
    by_cases hd : p.devicePath = blockDevice.device <;> simp [hd, Monitor.refresh]

theorem foldl_updatePropertiesLoop_frame (blockDevice : Block) (idxs : List Nat) (m : Monitor) :
    (idxs.foldl (updatePropertiesLoop blockDevice) m).operationQueue = m.operationQueue ∧
    (idxs.foldl (updatePropertiesLoop blockDevice) m).calls = m.calls ∧
    (idxs.foldl (updatePropertiesLoop blockDevice) m).signals = m.signals ∧
    (idxs.foldl (updatePropertiesLoop blockDevice) m).supportedFileSystems
      = m.supportedFileSystems := by
  induction idxs generalizing m with
  | nil => simp
  | cons i rest ih =>
    rw [List.foldl_cons]
    obtain ⟨h1, h2, h3, h4⟩ := ih (updatePropertiesLoop blockDevice m i)
    obtain ⟨g1, g2, g3, g4⟩ := updatePropertiesLoop_frame blockDevice m i
    exact ⟨h1.trans g1, h2.trans g2, h3.trans g3, h4.trans g4⟩

theorem updatePartitionProperties_frame (m : Monitor) (blockDevice : Block) :
    (updatePartitionProperties m blockDevice).operationQueue = m.operationQueue ∧
    (updatePartitionProperties m blockDevice).calls = m.calls ∧
    (updatePartitionProperties m blockDevice).signals = m.signals ∧
    (updatePartitionProperties m blockDevice).supportedFileSystems = m.supportedFileSystems :=
  foldl_updatePropertiesLoop_frame blockDevice _ m

/-- What the mount-path-changed handler does to the operation queue and to the calls: with a
format entry at the head and an empty mount path of the block, the head leaves the queue and
its Format call is sent; otherwise both are as before. -/
theorem mountPathChanged_queue_calls (m : Monitor) (block : Block) :
    ((mountPathChanged m block).operationQueue, (mountPathChanged m block).calls) =
      match m.operationQueue with
      | [] => ([], m.calls)
      | op :: rest =>
        if op.command = "format" ∧ block.mountPath = "" then
          (rest, m.calls ++ [Call.format op.deviceName op.type op.arguments])
        else (op :: rest, m.calls) := by
  have hq : ∀ job, (updatePartitionProperties
      ((updatePartitionStatus (m.blockSignals true) job true).blockSignals false)
      block).operationQueue = m.operationQueue := by
    intro job
    rw [(updatePartitionProperties_frame _ block).1]
    exact (updatePartitionStatus_frame (m.blockSignals true) job true).2.1
  have hc : ∀ job, (updatePartitionProperties
      ((updatePartitionStatus (m.blockSignals true) job true).blockSignals false)
      block).calls = m.calls := by
    intro job
    rw [(updatePartitionProperties_frame _ block).2.1]
    exact (updatePartitionStatus_frame (m.blockSignals true) job true).2.2.2.1
  unfold mountPathChanged
  simp only []
  split
  · rename_i heq
    rw [hq] at heq
    rw [heq, hq, hc, heq]
  · rename_i op rest heq
    rw [hq] at heq
    rw [heq]
    by_cases hcond : op.command = "format" ∧ block.mountPath = ""
    · simp only [hcond, and_self, if_true, doFormat, hc]
    · simp only [hcond, if_false, hq, hc, heq]

/-- C7, the code at the failing input: "sda1" and "sdb1" are both mounted, a format of "sda1"
is requested and queued, then the mount path of the other device "sdb1" becomes empty.  The
handler run for "sdb1" takes the entry for "sda1" off the queue and sends its Format call,
while "sda1" still is mounted with a non-empty mount path. -/
theorem queued_format_released_by_other_device :
    (format (monitorOf [sda1Mounted, sdb1Mounted]) "sda1" "ext4" "Data").operationQueue
        = [Operation.mk "format" "sda1" "ext4" (formatArguments "Data")] ∧
    (mountPathChanged (format (monitorOf [sda1Mounted, sdb1Mounted]) "sda1" "ext4" "Data")
        sdb1BlockUnmounted).operationQueue = [] ∧
    (mountPathChanged (format (monitorOf [sda1Mounted, sdb1Mounted]) "sda1" "ext4" "Data")
        sdb1BlockUnmounted).calls
        = [Call.filesystem DBusMethod.FilesystemUnmount "sda1" [("", QVariant.str "")],
           Call.format "sda1" "ext4" (formatArguments "Data")] ∧
    ((mountPathChanged (format (monitorOf [sda1Mounted, sdb1Mounted]) "sda1" "ext4" "Data")
        sdb1BlockUnmounted).partitions[0]?).map
          (fun p => (p.deviceName, p.status, p.mountPath))
        = some ("sda1", Status.Mounted, "/run/media/sda1") := by
  decide

/-- C8: the operation queue is FIFO and not deduplicated.  Two format requests for the same
mounted device append two entries in request order; a mount-path-changed notification with an
empty mount path on a queue whose head is a format entry removes exactly that head and sends
exactly one Format call, with the device, type and arguments of the head; so, starting from
an empty queue, the two requests followed by two such notifications send the two Format calls
in request order and leave the queue empty. -/
theorem operation_queue_fifo (m : Monitor) (deviceName type1 label1 type2 label2 : String)
    (block1 block2 : Block) (hname : deviceName ≠ "")
    (ht1 : type1 ∈ m.supportedFileSystems) (ht2 : type2 ∈ m.supportedFileSystems)
    (hmounted : ∃ p ∈ m.partitions, p.deviceName = deviceName ∧ p.status = Status.Mounted)
    (hb1 : block1.mountPath = "") (hb2 : block2.mountPath = "") :
    (format (format m deviceName type1 label1) deviceName type2 label2).operationQueue =
      m.operationQueue ++
        [Operation.mk "format" deviceName type1 (formatArguments label1),
         Operation.mk "format" deviceName type2 (formatArguments label2)] ∧
    (∀ (n : Monitor) (op : Operation) (rest : List Operation) (block : Block),
      n.operationQueue = op :: rest → op.command = "format" → block.mountPath = "" →
      (mountPathChanged n block).operationQueue = rest ∧
      (mountPathChanged n block).calls =
        n.calls ++ [Call.format op.deviceName op.type op.arguments]) ∧
    (m.operationQueue = [] →
      (mountPathChanged
        (mountPathChanged (format (format m deviceName type1 label1) deviceName type2 label2)
          block1) block2).operationQueue = [] ∧
      (mountPathChanged
        (mountPathChanged (format (format m deviceName type1 label1) deviceName type2 label2)
          block1) block2).calls =
        (format (format m deviceName type1 label1) deviceName type2 label2).calls ++
          [Call.format deviceName type1 (formatArguments label1),
           Call.format deviceName type2 (formatArguments label2)]) := by
  have hstep : ∀ (n : Monitor) (op : Operation) (rest : List Operation) (block : Block),
      n.operationQueue = op :: rest → op.command = "format" → block.mountPath = "" →
      (mountPathChanged n block).operationQueue = rest ∧
      (mountPathChanged n block).calls =
        n.calls ++ [Call.format op.deviceName op.type op.arguments] := by
    intro n op rest block hq hcmd hb
    have h := mountPathChanged_queue_calls n block
    rw [hq] at h
    simp only [hcmd, hb, and_self, if_true, Prod.mk.injEq] at h
    exact h
  have h1 := format_of_mounted m deviceName type1 label1 hname ht1 hmounted
  have h2 := format_of_mounted (format m deviceName type1 label1) deviceName type2
    label2 hname (by rw [h1]; exact ht2) (by rw [h1]; exact hmounted)
  have hqueue : (format (format m deviceName type1 label1) deviceName type2
      label2).operationQueue = m.operationQueue ++
        [Operation.mk "format" deviceName type1 (formatArguments label1),
         Operation.mk "format" deviceName type2 (formatArguments label2)] := by
    rw [h2, h1]
    simp
  refine ⟨hqueue, hstep, ?_⟩
  intro hempty
  rw [hempty, List.nil_append] at hqueue
  obtain ⟨hq1, hc1⟩ := hstep _ _ _ block1 hqueue rfl hb1
  obtain ⟨hq2, hc2⟩ := hstep _ _ _ block2 hq1 rfl hb2
  refine ⟨hq2, ?_⟩
  rw [hc2, hc1]
  simp

/-- C8, at a concrete input: two format requests for the mounted "sda1", ext4 then vfat,
followed by two notifications of the empty mount path of "sda1". -/
theorem operation_queue_fifo_witness :
    (mountPathChanged
      (mountPathChanged
        (format (format (monitorOf [sda1Mounted]) "sda1" "ext4" "A") "sda1" "vfat" "B")
        sda1BlockUnmounted) sda1BlockUnmounted).operationQueue = [] ∧
    (mountPathChanged
      (mountPathChanged
        (format (format (monitorOf [sda1Mounted]) "sda1" "ext4" "A") "sda1" "vfat" "B")
        sda1BlockUnmounted) sda1BlockUnmounted).calls =
      (format (format (monitorOf [sda1Mounted]) "sda1" "ext4" "A") "sda1" "vfat" "B").calls ++
        [Call.format "sda1" "ext4" (formatArguments "A"),
         Call.format "sda1" "vfat" (formatArguments "B")] :=
  (operation_queue_fifo (monitorOf [sda1Mounted]) "sda1" "ext4" "A" "vfat" "B"
    sda1BlockUnmounted sda1BlockUnmounted (by decide) (by decide) (by decide)
    ⟨sda1Mounted, by decide, by decide, by decide⟩ rfl rfl).2.2 rfl

/-! ## Validation -/

/-- C9: validation failures go no further.  `format` with an empty device name, `format` with
a type that is not among the supported filesystems, and `mount` and `unmount` with an empty
device name return the monitor state as it was: no call is sent, no signal is emitted, and
the operation queue and the partitions are unchanged. -/
theorem validation_failure_is_noop (m : Monitor) (deviceName type label : String)
    (htype : type ∉ m.supportedFileSystems) :
    (∀ anyType, format m "" anyType label = m) ∧
    format m deviceName type label = m ∧
    mount m "" = m ∧
    unmount m "" = m := by
  have hc : ¬ (m.supportedFileSystems.contains type = true) := by simp [htype]
  refine ⟨?_, ?_, ?_, ?_⟩
  · intro anyType
    simp [format]
  · unfold format
    by_cases hn : deviceName = ""
    · simp [hn]
    · simp only [hn, if_false]
      exact if_pos hc
  · simp [mount, startMountOperation]
  · simp [unmount, startMountOperation]

/-- C9, at a concrete input: formatting "sda1" as "ntfs", which is not supported. -/
theorem validation_failure_is_noop_witness :
    (∀ anyType, format (monitorOf [sda1Mounted]) "" anyType "Data" = monitorOf [sda1Mounted]) ∧
    format (monitorOf [sda1Mounted]) "sda1" "ntfs" "Data" = monitorOf [sda1Mounted] ∧
    mount (monitorOf [sda1Mounted]) "" = monitorOf [sda1Mounted] ∧
    unmount (monitorOf [sda1Mounted]) "" = monitorOf [sda1Mounted] :=
  validation_failure_is_noop (monitorOf [sda1Mounted]) "sda1" "ntfs" "Data" (by decide)

/-! ## The error table -/

theorem lookupError_eq_none (entries : List ErrorEntry) (errorName : String)
    (h : errorName ∉ entries.map (fun entry => entry.dbusErrorName)) :
    lookupError entries errorName = none := by
  induction entries with
  | nil => rfl
  | cons entry rest ih =>
    simp only [List.map_cons, List.mem_cons, not_or] at h
    unfold lookupError
    rw [if_neg (fun heq => h.1 heq.symm)]
    exact ih h.2

/-- C10: the error table has 15 entries, in the order Failed, Cancelled, AlreadyCancelled,
NotAuthorized, NotAuthorizedCanObtain, NotAuthorizedDismissed, AlreadyMounted, NotMounted,
OptionNotPermitted, MountedByOtherUser, AlreadyUnmounting, NotSupported, Timedout,
WouldWakeup, DeviceBusy; its D-Bus error names are pairwise distinct; the first-match scan
maps the name of every entry to the error code of that entry; and for a name that is not in
the table the scan finds no error code. -/
theorem error_table_lookup :
    dbus_error_entries.length = 15 ∧
    dbus_error_entries.map (fun entry => entry.errorCode) =
      [Error.ErrorFailed, Error.ErrorCancelled, Error.ErrorAlreadyCancelled,
       Error.ErrorNotAuthorized, Error.ErrorNotAuthorizedCanObtain,
       Error.ErrorNotAuthorizedDismissed, Error.ErrorAlreadyMounted, Error.ErrorNotMounted,
       Error.ErrorOptionNotPermitted, Error.ErrorMountedByOtherUser,
       Error.ErrorAlreadyUnmounting, Error.ErrorNotSupported, Error.ErrorTimedout,
       Error.ErrorWouldWakeup, Error.ErrorDeviceBusy] ∧
    (dbus_error_entries.map (fun entry => entry.dbusErrorName)).Nodup ∧
    (∀ entry ∈ dbus_error_entries,
      lookupError dbus_error_entries entry.dbusErrorName = some entry.errorCode) ∧
    (∀ errorName, errorName ∉ dbus_error_entries.map (fun entry => entry.dbusErrorName) →
      lookupError dbus_error_entries errorName = none) := by
  refine ⟨by decide, by decide, by decide, by decide, ?_⟩
  intro errorName h
  exact lookupError_eq_none dbus_error_entries errorName h

/-- C10, at concrete inputs: the name of the DeviceBusy entry, and a name that is not in the
table. -/
theorem error_table_lookup_witness :
    lookupError dbus_error_entries "org.freedesktop.UDisks2.Error.DeviceBusy"
      = some Error.ErrorDeviceBusy ∧
    lookupError dbus_error_entries "org.freedesktop.DBus.Error.NoReply" = none :=
  ⟨error_table_lookup.2.2.2.1 ⟨Error.ErrorDeviceBusy, "org.freedesktop.UDisks2.Error.DeviceBusy"⟩
      (by decide),
    error_table_lookup.2.2.2.2 "org.freedesktop.DBus.Error.NoReply" (by decide)⟩

/-! ## Mount, unmount and format requests and their completion handlers -/

/-- The scan finds, for the name of an entry of the table, the error code of that entry. -/
theorem lookupError_of_mem (entry : ErrorEntry) (h : entry ∈ dbus_error_entries) :
    lookupError dbus_error_entries entry.dbusErrorName = some entry.errorCode := by
  revert entry
  decide

theorem mount_nonempty (m : Monitor) (deviceName : String) (h : deviceName ≠ "") :
    mount m deviceName =
      { m with
        calls := m.calls ++
          [Call.filesystem DBusMethod.FilesystemMount deviceName [("fstype", QVariant.str "")]],
        signals := m.signals ++ [Signal.status deviceName Status.Mounting] } := by
  unfold mount startMountOperation
  simp [h, Monitor.emit, QVariantHash.insert]

/-- C11: for a non-empty device name, `mount` sends exactly one Mount call and emits
status(name, Mounting) in the same synchronous step, before any completion, and `unmount`
sends exactly one Unmount call and emits status(name, Unmounting); nothing else changes.
When the call completes successfully (the watcher is valid and finished) the completion
handler emits status(name, Mounted) for a mount and status(name, Unmounted) for an unmount,
and nothing else: no error signal. -/
theorem mount_unmount_call_and_success (m : Monitor) (deviceName : String) (watcher : Watcher)
    (hname : deviceName ≠ "") (hvalid : watcher.isValid = true)
    (hfinished : watcher.isFinished = true) :
    mount m deviceName =
      { m with
        calls := m.calls ++
          [Call.filesystem DBusMethod.FilesystemMount deviceName [("fstype", QVariant.str "")]],
        signals := m.signals ++ [Signal.status deviceName Status.Mounting] } ∧
    unmount m deviceName =
      { m with
        calls := m.calls ++
          [Call.filesystem DBusMethod.FilesystemUnmount deviceName [("", QVariant.str "")]],
        signals := m.signals ++ [Signal.status deviceName Status.Unmounting] } ∧
    mountOperationFinished m DBusMethod.FilesystemMount deviceName watcher =
      { m with signals := m.signals ++ [Signal.status deviceName Status.Mounted] } ∧
    mountOperationFinished m DBusMethod.FilesystemUnmount deviceName watcher =
      { m with signals := m.signals ++ [Signal.status deviceName Status.Unmounted] } := by
  refine ⟨mount_nonempty m deviceName hname, unmount_nonempty m deviceName hname, ?_, ?_⟩
  · simp [mountOperationFinished, hvalid, hfinished, Monitor.emit]
  · simp [mountOperationFinished, hvalid, hfinished, Monitor.emit]

/-- C11, at a concrete input: mounting "sda1" and the successful completion of the call. -/
theorem mount_unmount_call_and_success_witness :
    (mount (monitorOf [sda1Unmounted]) "sda1").calls =
      [Call.filesystem DBusMethod.FilesystemMount "sda1" [("fstype", QVariant.str "")]] ∧
    (mountOperationFinished (mount (monitorOf [sda1Unmounted]) "sda1")
        DBusMethod.FilesystemMount "sda1" ⟨true, true, false, ""⟩).signals =
      [Signal.status "sda1" Status.Mounting, Signal.status "sda1" Status.Mounted] := by
  have h1 := mount_unmount_call_and_success (monitorOf [sda1Unmounted]) "sda1"
    ⟨true, true, false, ""⟩ (by decide) rfl rfl
  have h2 := mount_unmount_call_and_success (mount (monitorOf [sda1Unmounted]) "sda1") "sda1"
    ⟨true, true, false, ""⟩ (by decide) rfl rfl
  rw [h2.2.2.1, h1.1]
  exact ⟨rfl, rfl⟩

/-- What the completion handler of `startMountOperation` emits for an error reply: the typed
error when the scan of the table finds one, then the status chosen by the chain of name
comparisons. -/
theorem mountOperationFinished_error (m : Monitor) (dbusMethod : DBusMethod)
    (deviceName : String) (watcher : Watcher)
    (hnot : ¬ (watcher.isValid = true ∧ watcher.isFinished = true))
    (herror : watcher.isError = true) :
    mountOperationFinished m dbusMethod deviceName watcher =
      { m with
        signals := m.signals ++
          (match lookupError dbus_error_entries watcher.errorName with
            | some errorCode =>
              [if dbusMethod = DBusMethod.FilesystemMount then Signal.mountError errorCode
               else Signal.unmountError errorCode]
            | none => []) ++
          (if UDISKS2_ERROR_ALREADY_UNMOUNTING = watcher.errorName then []
           else if UDISKS2_ERROR_ALREADY_MOUNTED = watcher.errorName then
             [Signal.status deviceName Status.Mounted]
           else if dbusMethod = DBusMethod.FilesystemUnmount then
             [Signal.status deviceName Status.Mounted]
           else [Signal.status deviceName Status.Unmounted]) } := by
  unfold mountOperationFinished
  simp only [hnot, if_false, herror, if_true]
  cases lookupError dbus_error_entries watcher.errorName <;>
    cases dbusMethod <;>
    by_cases h1 : UDISKS2_ERROR_ALREADY_UNMOUNTING = watcher.errorName <;>
    by_cases h2 : UDISKS2_ERROR_ALREADY_MOUNTED = watcher.errorName <;>
    simp [h1, h2, Monitor.emit]

/-- C12: when a mount or unmount call completes with an error whose name is neither the
"already mounted" nor the "already unmounting" name, the handler reverts the optimistic
status: it emits status(name, Unmounted) after a failed mount and status(name, Mounted)
after a failed unmount, whether or not the name is in the error table.  Before that it emits
the typed error signal (mountError for a mount, unmountError for an unmount, with the code of
the table entry) when the name is listed, and no error signal when it is not. -/
theorem failed_call_reverts_status (m : Monitor) (deviceName : String) (watcher : Watcher)
    (hnot : ¬ (watcher.isValid = true ∧ watcher.isFinished = true))
    (herror : watcher.isError = true)
    (hmounted : watcher.errorName ≠ UDISKS2_ERROR_ALREADY_MOUNTED)
    (hunmounting : watcher.errorName ≠ UDISKS2_ERROR_ALREADY_UNMOUNTING) :
    (∀ entry ∈ dbus_error_entries, entry.dbusErrorName = watcher.errorName →
      mountOperationFinished m DBusMethod.FilesystemMount deviceName watcher =
        { m with
          signals := m.signals ++
            [Signal.mountError entry.errorCode, Signal.status deviceName Status.Unmounted] } ∧
      mountOperationFinished m DBusMethod.FilesystemUnmount deviceName watcher =
        { m with
          signals := m.signals ++
            [Signal.unmountError entry.errorCode, Signal.status deviceName Status.Mounted] }) ∧
    (watcher.errorName ∉ dbus_error_entries.map (fun entry => entry.dbusErrorName) →
      mountOperationFinished m DBusMethod.FilesystemMount deviceName watcher =
        { m with signals := m.signals ++ [Signal.status deviceName Status.Unmounted] } ∧
      mountOperationFinished m DBusMethod.FilesystemUnmount deviceName watcher =
        { m with signals := m.signals ++ [Signal.status deviceName Status.Mounted] }) := by
  have h1 : ¬ (UDISKS2_ERROR_ALREADY_UNMOUNTING = watcher.errorName) :=
    fun h => hunmounting h.symm
  have h2 : ¬ (UDISKS2_ERROR_ALREADY_MOUNTED = watcher.errorName) := fun h => hmounted h.symm
  constructor
  · intro entry hmem hentry
    have hl := lookupError_of_mem entry hmem
    rw [hentry] at hl
    constructor <;>
      simp [mountOperationFinished_error m _ deviceName watcher hnot herror, hl, h1, h2]
  · intro hunlisted
    have hl := lookupError_eq_none dbus_error_entries watcher.errorName hunlisted
    constructor <;>
      simp [mountOperationFinished_error m _ deviceName watcher hnot herror, hl, h1, h2]

/-- C12, at a concrete input: an unmount of "sda1" that fails with the DeviceBusy error. -/
theorem failed_call_reverts_status_witness :
    mountOperationFinished (monitorOf [sda1Mounted]) DBusMethod.FilesystemUnmount "sda1"
        ⟨false, true, true, "org.freedesktop.UDisks2.Error.DeviceBusy"⟩ =
      { monitorOf [sda1Mounted] with
        signals := [Signal.unmountError Error.ErrorDeviceBusy,
                    Signal.status "sda1" Status.Mounted] } :=
  ((failed_call_reverts_status (monitorOf [sda1Mounted]) "sda1"
      ⟨false, true, true, "org.freedesktop.UDisks2.Error.DeviceBusy"⟩
      (by decide) rfl (by decide) (by decide)).1
    ⟨Error.ErrorDeviceBusy, "org.freedesktop.UDisks2.Error.DeviceBusy"⟩ (by decide) rfl).2

/-- C13 as stated fails: a mount of "sda1" that fails with the "already mounted" name makes
the handler emit mountError(ErrorAlreadyMounted), because the scan of the error table runs
before the names are compared and the table lists that name. -/
theorem already_mounted_error_counterexample :
    ¬ ∀ (m : Monitor) (dbusMethod : DBusMethod) (deviceName : String) (watcher : Watcher),
        ¬ (watcher.isValid = true ∧ watcher.isFinished = true) →
        watcher.isError = true →
        (watcher.errorName = UDISKS2_ERROR_ALREADY_MOUNTED ∨
          watcher.errorName = UDISKS2_ERROR_ALREADY_UNMOUNTING) →
        ∀ emitted,
          (mountOperationFinished m dbusMethod deviceName watcher).signals
            = m.signals ++ emitted →
          ∀ error, Signal.mountError error ∉ emitted ∧ Signal.unmountError error ∉ emitted := by
  intro h
  have h1 := h (monitorOf [sda1Mounted]) DBusMethod.FilesystemMount "sda1"
    ⟨false, true, true, UDISKS2_ERROR_ALREADY_MOUNTED⟩ (by decide) rfl (Or.inl rfl)
    [Signal.mountError Error.ErrorAlreadyMounted, Signal.status "sda1" Status.Mounted]
    (by decide) Error.ErrorAlreadyMounted
  exact h1.1 (by decide)

/-- C13, amended: when a mount or unmount call fails with the "already mounted" or the
"already unmounting" name, the typed error signal is emitted as for every listed name
(mountError for a mount, unmountError for an unmount, with code ErrorAlreadyMounted or
ErrorAlreadyUnmounting); what is left out is the revert of the status: for "already
mounted" status(name, Mounted) is emitted, for "already unmounting" no status signal is
emitted. -/
theorem already_mounted_or_unmounting (m : Monitor) (deviceName : String) (watcher : Watcher)
    (hnot : ¬ (watcher.isValid = true ∧ watcher.isFinished = true))
    (herror : watcher.isError = true) :
    (watcher.errorName = UDISKS2_ERROR_ALREADY_MOUNTED →
      mountOperationFinished m DBusMethod.FilesystemMount deviceName watcher =
        { m with
          signals := m.signals ++
            [Signal.mountError Error.ErrorAlreadyMounted,
             Signal.status deviceName Status.Mounted] } ∧
      mountOperationFinished m DBusMethod.FilesystemUnmount deviceName watcher =
        { m with
          signals := m.signals ++
            [Signal.unmountError Error.ErrorAlreadyMounted,
             Signal.status deviceName Status.Mounted] }) ∧
    (watcher.errorName = UDISKS2_ERROR_ALREADY_UNMOUNTING →
      mountOperationFinished m DBusMethod.FilesystemMount deviceName watcher =
        { m with signals := m.signals ++ [Signal.mountError Error.ErrorAlreadyUnmounting] } ∧
      mountOperationFinished m DBusMethod.FilesystemUnmount deviceName watcher =
        { m with
          signals := m.signals ++ [Signal.unmountError Error.ErrorAlreadyUnmounting] }) := by
  constructor
  · intro hname
    have hl : lookupError dbus_error_entries UDISKS2_ERROR_ALREADY_MOUNTED
        = some Error.ErrorAlreadyMounted := by decide
    have h1 : ¬ (UDISKS2_ERROR_ALREADY_UNMOUNTING = UDISKS2_ERROR_ALREADY_MOUNTED) := by
      decide
    constructor <;>
      simp [mountOperationFinished_error m _ deviceName watcher hnot herror, hl, h1, hname]
  · intro hname
    have hl : lookupError dbus_error_entries UDISKS2_ERROR_ALREADY_UNMOUNTING
        = some Error.ErrorAlreadyUnmounting := by decide
    constructor <;>
      simp [mountOperationFinished_error m _ deviceName watcher hnot herror, hl, hname]

/-- C13 amended, at a concrete input: an unmount of "sda1" failing with "already
unmounting". -/
theorem already_mounted_or_unmounting_witness :
    mountOperationFinished (monitorOf [sda1Mounted]) DBusMethod.FilesystemUnmount "sda1"
        ⟨false, true, true, UDISKS2_ERROR_ALREADY_UNMOUNTING⟩ =
      { monitorOf [sda1Mounted] with
        signals := [Signal.unmountError Error.ErrorAlreadyUnmounting] } :=
  ((already_mounted_or_unmounting (monitorOf [sda1Mounted]) "sda1"
      ⟨false, true, true, UDISKS2_ERROR_ALREADY_UNMOUNTING⟩ (by decide) rfl).2 rfl).2

/-- C14: the completion handler of a Format call emits status(name, Formatted) and nothing
else when the call succeeded.  When the call failed it emits formatError with the code of the
table entry if the error name is listed and nothing if it is not; in both failure cases no
status signal is emitted, so nothing is reverted. -/
theorem format_completion (m : Monitor) (deviceName : String) (watcher : Watcher) :
    (watcher.isValid = true ∧ watcher.isFinished = true →
      formatFinished m deviceName watcher =
        { m with signals := m.signals ++ [Signal.status deviceName Status.Formatted] }) ∧
    (¬ (watcher.isValid = true ∧ watcher.isFinished = true) → watcher.isError = true →
      (∀ entry ∈ dbus_error_entries, entry.dbusErrorName = watcher.errorName →
        formatFinished m deviceName watcher =
          { m with signals := m.signals ++ [Signal.formatError entry.errorCode] }) ∧
      (watcher.errorName ∉ dbus_error_entries.map (fun entry => entry.dbusErrorName) →
        formatFinished m deviceName watcher = m)) := by
  refine ⟨?_, ?_⟩
  · intro h
    simp [formatFinished, h, Monitor.emit]
  · intro hnot herror
    constructor
    · intro entry hmem hentry
      have hl := lookupError_of_mem entry hmem
      rw [hentry] at hl
      simp [formatFinished, hnot, herror, hl, Monitor.emit]
    · intro hunlisted
      have hl := lookupError_eq_none dbus_error_entries watcher.errorName hunlisted
      simp [formatFinished, hnot, herror, hl]

/-- C14, at a concrete input: a Format call on "sda1" that fails with NotAuthorized. -/
theorem format_completion_witness :
    formatFinished (monitorOf [sda1Unmounted]) "sda1"
        ⟨false, true, true, "org.freedesktop.UDisks2.Error.NotAuthorized"⟩ =
      { monitorOf [sda1Unmounted] with
        signals := [Signal.formatError Error.ErrorNotAuthorized] } :=
  ((format_completion (monitorOf [sda1Unmounted]) "sda1"
      ⟨false, true, true, "org.freedesktop.UDisks2.Error.NotAuthorized"⟩).2
      (by decide) rfl).1
    ⟨Error.ErrorNotAuthorized, "org.freedesktop.UDisks2.Error.NotAuthorized"⟩ (by decide) rfl

/-! ## Reconciliation of partition properties -/

theorem propertiesResult_idem (fs : List String) (b : Block) (p : Partition) :
    propertiesResult fs b (propertiesResult fs b p) = propertiesResult fs b p := by
  unfold propertiesResult
  by_cases h : p.devicePath = b.device <;> simp [h]

theorem propertiesResult_devicePath (fs : List String) (b : Block) (p : Partition) :
    (propertiesResult fs b p).devicePath = p.devicePath := by
  unfold propertiesResult
  by_cases h : p.devicePath = b.device <;> simp [h]

theorem updatePropertiesLoop_getElem? (b : Block) (m : Monitor) (i j : Nat) :
    (updatePropertiesLoop b m i).partitions[j]? =
      if j = i then (m.partitions[j]?).map (propertiesResult m.supportedFileSystems b)
      else m.partitions[j]? := by
  unfold updatePropertiesLoop
  cases hget : m.partitions[i]? with
  | none =>
    by_cases hji : j = i
    · subst hji
      simp [hget]
    · simp [hji]
  | some p =>
    have hlt : i < m.partitions.length := by
      by_contra hge
      rw [List.getElem?_eq_none (Nat.le_of_not_lt hge)] at hget
      exact Option.noConfusion hget
    by_cases hd : p.devicePath = b.device
    · by_cases hji : j = i
      · subst hji
        simp [hd, hget, Monitor.refresh, List.getElem?_set, hlt, propertiesResult]
      · have hij : i ≠ j := fun h => hji h.symm
        simp [hd, hji, Monitor.refresh, List.getElem?_set, hij]
    · by_cases hji : j = i
      · subst hji
        simp [hd, hget, propertiesResult]
      · simp [hd, hji]

theorem updatePropertiesLoop_refreshCalls (b : Block) (m : Monitor) (i : Nat) :
    (updatePropertiesLoop b m i).refreshCalls =
      m.refreshCalls ++ (if matchesBlock b m.partitions i then [i] else []) := by
  unfold updatePropertiesLoop matchesBlock
  cases m.partitions[i]? with
  | none => simp
  | some p =>
    by_cases hd : p.devicePath = b.device <;> simp [hd, Monitor.refresh]

theorem matchesBlock_congr (b : Block) (ps qs : List Partition) (fs : List String)
    (h : ∀ j : Nat, qs[j]? = ps[j]? ∨ qs[j]? = (ps[j]?).map (propertiesResult fs b))
    (i : Nat) :
    matchesBlock b qs i = matchesBlock b ps i := by
  unfold matchesBlock
  rcases h i with h1 | h1
  · rw [h1]
  · rw [h1]
    cases ps[i]? with
    | none => rfl
    | some p => simp [propertiesResult_devicePath]

/-- The partitions after a pass of the properties loop over `idxs`. -/
theorem foldl_updatePropertiesLoop_getElem? (b : Block) (idxs : List Nat) (m : Monitor)
    (j : Nat) :
    (idxs.foldl (updatePropertiesLoop b) m).partitions[j]? =
      if j ∈ idxs then (m.partitions[j]?).map (propertiesResult m.supportedFileSystems b)
      else m.partitions[j]? := by
  induction idxs generalizing m with
  | nil => simp
  | cons i rest ih =>
    rw [List.foldl_cons, ih, updatePropertiesLoop_getElem?,
      (updatePropertiesLoop_frame b m i).2.2.2]
    by_cases hji : j = i
    · subst hji
      by_cases hr : j ∈ rest
      · cases m.partitions[j]? <;> simp [hr, propertiesResult_idem]
      · simp [hr]
    · by_cases hr : j ∈ rest <;> simp [hr, hji]

/-- The refresh calls of a pass of the properties loop over `idxs`: one for each visit of a
partition of the block. -/
theorem foldl_updatePropertiesLoop_refreshCalls (b : Block) (idxs : List Nat) (m : Monitor) :
    (idxs.foldl (updatePropertiesLoop b) m).refreshCalls =
      m.refreshCalls ++ idxs.filter (fun i => matchesBlock b m.partitions i) := by
  induction idxs generalizing m with
  | nil => simp
  | cons i rest ih =>
    rw [List.foldl_cons, ih, updatePropertiesLoop_refreshCalls]
    have hcongr : ∀ k, matchesBlock b (updatePropertiesLoop b m i).partitions k
        = matchesBlock b m.partitions k := by
      apply matchesBlock_congr b m.partitions _ m.supportedFileSystems
      intro j
      rw [updatePropertiesLoop_getElem?]
      by_cases hji : j = i
      · right; simp [hji]
      · left; simp [hji]
    simp only [hcongr, List.filter_cons]
    by_cases hm : matchesBlock b m.partitions i = true <;> simp [hm]

/-- The partitions after `updatePartitionProperties`: each is rewritten with
`propertiesResult`. -/
theorem updatePartitionProperties_getElem? (m : Monitor) (b : Block) (j : Nat) :
    (updatePartitionProperties m b).partitions[j]? =
      (m.partitions[j]?).map (propertiesResult m.supportedFileSystems b) := by
  unfold updatePartitionProperties
  rw [foldl_updatePropertiesLoop_getElem?]
  by_cases hj : j < m.partitions.length
  · simp [hj]
  · simp [hj, List.getElem?_eq_none (Nat.le_of_not_lt hj)]

theorem updatePartitionProperties_partitions (m : Monitor) (b : Block) :
    (updatePartitionProperties m b).partitions =
      m.partitions.map (propertiesResult m.supportedFileSystems b) := by
  apply List.ext_getElem?
  intro j
  rw [updatePartitionProperties_getElem?, List.getElem?_map]

theorem updatePartitionProperties_refreshCalls (m : Monitor) (b : Block) :
    (updatePartitionProperties m b).refreshCalls =
      m.refreshCalls ++
        (List.range m.partitions.length).filter (fun i => matchesBlock b m.partitions i) :=
  foldl_updatePropertiesLoop_refreshCalls b _ m

/-- C15: after `updatePartitionProperties(block)`, a partition `P` (at index `j`) whose
devicePath is the device of the block has deviceLabel = the label of the block if that is
non-empty and its UUID otherwise, mountPath, filesystemType and readOnly copied from the
block, valid = true, and canMount = HintAuto and (filesystem type non-empty) and (filesystem
type among the supported filesystems); in particular HintAuto with the supported type "vfat"
gives canMount = true.  A partition with another devicePath is unchanged, and status,
activeState and mountFailed of every partition are unchanged. -/
theorem properties_reconciled (m : Monitor) (block : Block) (j : Nat) (P : Partition)
    (hP : m.partitions[j]? = some P) :
    ∃ Q, (updatePartitionProperties m block).partitions[j]? = some Q ∧
      (P.devicePath = block.device →
        Q.deviceLabel = (if block.idLabel = "" then block.idUUID else block.idLabel) ∧
        Q.mountPath = block.mountPath ∧
        Q.filesystemType = block.idType ∧
        Q.readOnly = block.isReadOnly ∧
        Q.valid = true ∧
        (Q.canMount = true ↔
          block.hintAuto = true ∧ block.idType ≠ "" ∧
            block.idType ∈ m.supportedFileSystems) ∧
        (block.hintAuto = true → block.idType = "vfat" → "vfat" ∈ m.supportedFileSystems →
          Q.canMount = true)) ∧
      (P.devicePath ≠ block.device → Q = P) ∧
      Q.status = P.status ∧ Q.activeState = P.activeState ∧ Q.mountFailed = P.mountFailed := by
  refine ⟨propertiesResult m.supportedFileSystems block P, ?_, ?_, ?_, ?_, ?_, ?_⟩
  · rw [updatePartitionProperties_getElem?, hP]
    rfl
  · intro hd
    refine ⟨?_, ?_, ?_, ?_, ?_, ?_, ?_⟩
    · simp [propertiesResult, hd]
    · simp [propertiesResult, hd]
    · simp [propertiesResult, hd]
    · simp [propertiesResult, hd]
    · simp [propertiesResult, hd]
    · simp [propertiesResult, hd, and_assoc]
    · intro hauto htype hsup
      simp [propertiesResult, hd, hauto, htype, hsup]
  · intro hd
    simp [propertiesResult, hd]
  · unfold propertiesResult
    by_cases hd : P.devicePath = block.device <;> simp [hd]
  · unfold propertiesResult
    by_cases hd : P.devicePath = block.device <;> simp [hd]
  · unfold propertiesResult
    by_cases hd : P.devicePath = block.device <;> simp [hd]

/-- C15, at a concrete input: the block of "sda1" with HintAuto and type "vfat" reconciled
into the not yet valid partition "sda1": canMount and valid become true. -/
theorem properties_reconciled_witness :
    ∃ Q, (updatePartitionProperties (monitorOf [sda1Unmounted])
            sda1BlockUnmounted).partitions[0]? = some Q ∧
      Q.canMount = true ∧ Q.valid = true ∧ Q.deviceLabel = "card" := by
  obtain ⟨Q, hQ, h1, _⟩ :=
    properties_reconciled (monitorOf [sda1Unmounted]) sda1BlockUnmounted 0 sda1Unmounted rfl
  obtain ⟨hlabel, _, _, _, hvalid, _, hvfat⟩ := h1 rfl
  exact ⟨Q, hQ, hvfat rfl rfl (by decide), hvalid, hlabel⟩

/-- C16 as stated fails: reconciling the unchanged block of "sda1" a second time calls
`m_manager->refresh` for the partition again, so the second application does raise a
notification. -/
theorem reconciliation_refresh_counterexample :
    ¬ ∀ (m : Monitor) (block : Block),
        (updatePartitionProperties (updatePartitionProperties m block) block).partitions
          = (updatePartitionProperties m block).partitions ∧
        (updatePartitionProperties (updatePartitionProperties m block) block).refreshCalls
          = (updatePartitionProperties m block).refreshCalls := by
  intro h
  have h1 := (h (monitorOf [sda1Mounted]) sda1BlockUnmounted).2
  revert h1
  decide

/-- C16, amended: applying `updatePartitionProperties` twice with the same block leaves every
partition exactly as after the first application; the second application calls
`m_manager->refresh` again, once for every partition whose devicePath is the device of the
block and for no other partition. -/
theorem reconciliation_idempotent_on_partitions (m : Monitor) (block : Block) :
    (updatePartitionProperties (updatePartitionProperties m block) block).partitions
      = (updatePartitionProperties m block).partitions ∧
    ∃ fired,
      (updatePartitionProperties (updatePartitionProperties m block) block).refreshCalls
        = (updatePartitionProperties m block).refreshCalls ++ fired ∧
      fired.Nodup ∧
      ∀ i, i ∈ fired ↔ ∃ P, m.partitions[i]? = some P ∧ P.devicePath = block.device := by
  have hfs : (updatePartitionProperties m block).supportedFileSystems
      = m.supportedFileSystems := (updatePartitionProperties_frame m block).2.2.2
  constructor
  · rw [updatePartitionProperties_partitions, hfs, updatePartitionProperties_partitions,
      List.map_map]
    apply List.map_congr_left
    intro p _
    exact propertiesResult_idem _ _ p
  · refine ⟨(List.range (updatePartitionProperties m block).partitions.length).filter
      (fun i => matchesBlock block (updatePartitionProperties m block).partitions i),
      ?_, ?_, ?_⟩
    · exact updatePartitionProperties_refreshCalls _ block
    · exact (List.nodup_range _).filter _
    · intro i
      have hcongr : matchesBlock block (updatePartitionProperties m block).partitions i
          = matchesBlock block m.partitions i := by
        apply matchesBlock_congr block m.partitions _ m.supportedFileSystems
        intro j
        right
        exact updatePartitionProperties_getElem? m block j
      rw [List.mem_filter, hcongr, List.mem_range]
      unfold matchesBlock
      constructor
      · rintro ⟨_, hany⟩
        cases hp : m.partitions[i]? with
        | none => rw [hp] at hany; simp at hany
        | some p =>
          rw [hp] at hany
          exact ⟨p, rfl, by simpa using hany⟩
      · rintro ⟨P, hP, hd⟩
        refine ⟨?_, ?_⟩
        · rw [updatePartitionProperties_partitions, List.length_map]
          by_contra hge
          rw [List.getElem?_eq_none (Nat.le_of_not_lt hge)] at hP
          exact Option.noConfusion hP
        · rw [hP]
          simpa using hd

/-! ## Invariants of the partition record -/

/-- The status and the activeState written by a Mount, Unmount or Format job do not depend on
the partition they are written to. -/
theorem jobResult_status_const (job : Job) (success : Bool) (P P0 : Partition)
    (h : job.operation ≠ JobOperation.Unknown) :
    (jobResult job success P).status = (jobResult job success P0).status ∧
    (jobResult job success P).activeState = (jobResult job success P0).activeState := by
  unfold jobResult
  cases hop : job.operation with
  | Mount =>
    simp only [mountUnmountResult, mountUnmountStep]
    split <;> [split; skip] <;> exact ⟨rfl, rfl⟩
  | Unmount =>
    simp only [mountUnmountResult, mountUnmountStep]
    split <;> [split; skip] <;> exact ⟨rfl, rfl⟩
  | Format =>
    simp only [formatStep]
    split <;> [split; skip] <;> exact ⟨rfl, rfl⟩
  | Unknown => exact absurd hop h

/-- C17: status and activeState of a partition are written only together.  For every job and
success flag there is one pair (status, activeState) such that `updatePartitionStatus` leaves
each partition either with both fields as they were or with both fields set to that pair,
whatever the monitor state; and `updatePartitionProperties` leaves both fields of every
partition as they were. -/
theorem status_activeState_together (job : Job) (success : Bool) (block : Block) :
    (∃ status activeState, ∀ (m : Monitor) (j : Nat) (P Q : Partition),
      m.partitions[j]? = some P →
      (updatePartitionStatus m job success).partitions[j]? = some Q →
      (Q.status = P.status ∧ Q.activeState = P.activeState) ∨
        (Q.status = status ∧ Q.activeState = activeState)) ∧
    (∀ (m : Monitor) (j : Nat) (P Q : Partition),
      m.partitions[j]? = some P →
      (updatePartitionProperties m block).partitions[j]? = some Q →
      Q.status = P.status ∧ Q.activeState = P.activeState) := by
  constructor
  · refine ⟨(jobResult job success sda1Mounted).status,
      (jobResult job success sda1Mounted).activeState, ?_⟩
    intro m j P Q hP hQ
    rw [updatePartitionStatus_getElem?, hP] at hQ
    by_cases haff : j ∈ lookupPartitions m.partitions [] job.objects
    · rw [if_pos haff] at hQ
      simp only [Option.map, Option.some.injEq] at hQ
      subst hQ
      by_cases hop : job.operation = JobOperation.Unknown
      · left
        simp [jobResult, hop]
      · right
        exact jobResult_status_const job success P sda1Mounted hop
    · rw [if_neg haff] at hQ
      simp only [Option.some.injEq] at hQ
      subst hQ
      exact Or.inl ⟨rfl, rfl⟩
  · intro m j P Q hP hQ
    rw [updatePartitionProperties_getElem?, hP] at hQ
    simp only [Option.map, Option.some.injEq] at hQ
    subst hQ
    unfold propertiesResult
    by_cases hd : P.devicePath = block.device <;> simp [hd]

theorem startMountOperation_partitions (m : Monitor) (dbusMethod : DBusMethod)
    (deviceName : String) (arguments : QVariantHash) :
    (startMountOperation m dbusMethod deviceName arguments).partitions = m.partitions := by
  unfold startMountOperation
  by_cases hn : deviceName = ""
  · simp [hn]
  · cases dbusMethod <;> simp [hn, Monitor.emit]

theorem formatScan_partitions (m : Monitor) (deviceName type : String)
    (arguments : QVariantHash) (idxs : List Nat) :
    (formatScan m deviceName type arguments idxs).partitions = m.partitions := by
  induction idxs with
  | nil => rfl
  | cons i rest ih =>
    unfold formatScan
    cases m.partitions[i]? with
    | none => exact ih
    | some p =>
      by_cases hst : p.status = Status.Mounted
      · simp only [hst, if_true, unmount]
        rw [startMountOperation_partitions]
      · simp only [hst, if_false]
        exact ih

theorem format_partitions (m : Monitor) (deviceName type label : String) :
    (format m deviceName type label).partitions = m.partitions := by
  unfold format
  by_cases hn : deviceName = ""
  · simp [hn]
  · by_cases hc : m.supportedFileSystems.contains type = true
    · simp only [hn, if_false, hc, not_true_eq_false]
      exact formatScan_partitions _ _ _ _ _
    · simp only [hn, if_false]
      rw [if_pos hc]

theorem mountOperationFinished_partitions (m : Monitor) (dbusMethod : DBusMethod)
    (deviceName : String) (watcher : Watcher) :
    (mountOperationFinished m dbusMethod deviceName watcher).partitions = m.partitions := by
  by_cases h1 : watcher.isValid = true ∧ watcher.isFinished = true
  · unfold mountOperationFinished
    cases dbusMethod <;> simp [h1, Monitor.emit]
  · by_cases h2 : watcher.isError = true
    · rw [mountOperationFinished_error m dbusMethod deviceName watcher h1 h2]
    · unfold mountOperationFinished
      simp [h1, h2]

theorem formatFinished_partitions (m : Monitor) (deviceName : String) (watcher : Watcher) :
    (formatFinished m deviceName watcher).partitions = m.partitions := by
  unfold formatFinished
  by_cases h1 : watcher.isValid = true ∧ watcher.isFinished = true
  · simp [h1, Monitor.emit]
  · by_cases h2 : watcher.isError = true
    · cases hl : lookupError dbus_error_entries watcher.errorName <;>
        simp [h1, h2, hl, Monitor.emit]
    · simp [h1, h2]

/-- The partitions after the mount-path-changed handler are those after its two updates; the
release of a queued operation does not write to them. -/
theorem mountPathChanged_partitions (m : Monitor) (block : Block) :
    (mountPathChanged m block).partitions =
      (updatePartitionProperties
        ((updatePartitionStatus (m.blockSignals true)
          ((Job.create
            (if block.mountPath = "" then UDISKS2_JOB_OP_FS_UNMOUNT
             else UDISKS2_JOB_OP_FS_MOUNT) [block.path]).complete true) true).blockSignals
          false) block).partitions := by
  unfold mountPathChanged
  simp only []
  split
  · rfl
  · split <;> rfl

/-- An event that does not reach a partition leaves it as it is. -/
theorem handle_unreached (m : Monitor) (e : Event) (i : Nat) (P : Partition)
    (hP : m.partitions[i]? = some P) (h : ¬ e.reaches P.deviceName P.devicePath) :
    (m.handle e).partitions[i]? = some P := by
  have hjob : ∀ (n : Monitor) (job : Job) (success : Bool), n.partitions[i]? = some P →
      ¬ (job.operation ≠ JobOperation.Unknown ∧
        ∃ object ∈ job.objects, QString.section object '/' 5 = P.deviceName) →
      (updatePartitionStatus n job success).partitions[i]? = some P := by
    intro n job success hn hnot
    rw [updatePartitionStatus_getElem?, hn]
    by_cases haff : i ∈ lookupPartitions n.partitions [] job.objects
    · rw [if_pos haff]
      by_cases hop : job.operation = JobOperation.Unknown
      · simp [jobResult, hop]
      · exfalso
        apply hnot
        refine ⟨hop, ?_⟩
        rw [mem_lookupPartitions] at haff
        rcases haff with haff | ⟨object, hobj, p, hp, hname⟩
        · exact absurd haff (List.not_mem_nil i)
        · rw [hn] at hp
          simp only [Option.some.injEq] at hp
          subst hp
          exact ⟨object, hobj, hname.symm⟩
    · rw [if_neg haff]
  have hblock : ∀ (n : Monitor) (block : Block), n.partitions[i]? = some P →
      ¬ P.devicePath = block.device →
      (updatePartitionProperties n block).partitions[i]? = some P := by
    intro n block hn hnot
    rw [updatePartitionProperties_getElem?, hn]
    simp [propertiesResult, hnot]
  cases e with
  | jobUpdate job success => exact hjob m job success hP h
  | blockUpdated block => exact hblock m block hP h
  | mountPathChanged block =>
    simp only [Event.reaches, not_or] at h
    show (mountPathChanged m block).partitions[i]? = some P
    rw [mountPathChanged_partitions]
    apply hblock _ block _ h.2
    apply hjob (m.blockSignals true) _ true hP
    rintro ⟨_, object, hobj, hname⟩
    simp only [Job.complete, Job.create, List.mem_singleton] at hobj
    subst hobj
    exact h.1 hname
  | mount deviceName =>
    show (mount m deviceName).partitions[i]? = some P
    unfold mount
    rw [startMountOperation_partitions]
    exact hP
  | unmount deviceName =>
    show (unmount m deviceName).partitions[i]? = some P
    unfold unmount
    rw [startMountOperation_partitions]
    exact hP
  | format deviceName type label =>
    show (format m deviceName type label).partitions[i]? = some P
    rw [format_partitions]
    exact hP
  | mountOperationFinished dbusMethod deviceName watcher =>
    show (mountOperationFinished m dbusMethod deviceName watcher).partitions[i]? = some P
    rw [mountOperationFinished_partitions]
    exact hP
  | formatFinished deviceName watcher =>
    show (formatFinished m deviceName watcher).partitions[i]? = some P
    rw [formatFinished_partitions]
    exact hP

theorem run_unreached (events : List Event) (m : Monitor) (i : Nat) (P : Partition)
    (hP : m.partitions[i]? = some P)
    (h : ∀ e ∈ events, ¬ e.reaches P.deviceName P.devicePath) :
    (m.run events).partitions[i]? = some P := by
  induction events generalizing m with
  | nil => exact hP
  | cons e rest ih =>
    show ((m.handle e).run rest).partitions[i]? = some P
    exact ih (m.handle e)
      (handle_unreached m e i P hP (h e (List.mem_cons_self e rest)))
      (fun e2 he2 => h e2 (List.mem_cons_of_mem e he2))

theorem jobResult_valid (job : Job) (success : Bool) (P : Partition)
    (h : job.operation ≠ JobOperation.Unknown) : (jobResult job success P).valid = true := by
  unfold jobResult
  cases hop : job.operation with
  | Mount => rfl
  | Unmount => rfl
  | Format => rfl
  | Unknown => exact absurd hop h

/-- C18 as stated fails: the job-added update of a Mount job on the not yet valid partition
"sda1" sets `valid`, although the sequence of events holds no property reconciliation at
all. -/
theorem valid_set_by_job_update_counterexample :
    ¬ ∀ (m : Monitor) (events : List Event) (i : Nat) (P Q : Partition),
        m.partitions[i]? = some P → P.valid = false →
        (∀ e ∈ events, ∀ block,
          (e = Event.blockUpdated block ∨ e = Event.mountPathChanged block) →
            P.devicePath ≠ block.device) →
        (m.run events).partitions[i]? = some Q → Q.valid = false := by
  intro h
  have h1 := h (monitorOf [sda1Unmounted])
    [Event.jobUpdate ⟨JobOperation.Mount, [sda1Path], JobStatus.Added, false⟩ true] 0
    sda1Unmounted
    { sda1Unmounted with
      status := Status.Mounting, activeState := "activating", mountFailed := false,
      valid := true }
    rfl rfl
    (by
      intro e he block hb
      rw [List.mem_singleton] at he
      subst he
      rcases hb with hb | hb <;> exact Event.noConfusion hb)
    (by decide)
  exact Bool.noConfusion h1

/-- C18, amended: the valid flag of a partition becomes true only by a write of the monitor
to that partition.  Starting from a partition `P` (at index `i`) with valid = false, a
sequence of monitor events none of which reaches `P` (no property reconciliation for its
device path, no Mount, Unmount or Format job update and no mount path change whose target
resolves to its name) leaves `P` as it is, so valid stays false; a job update of a Mount,
Unmount or Format job that targets `P` sets valid = true, and so does a property
reconciliation for its device path. -/
theorem valid_false_until_written (m : Monitor) (events : List Event) (i : Nat) (P : Partition)
    (hP : m.partitions[i]? = some P) (hvalid : P.valid = false)
    (hno : ∀ e ∈ events, ¬ e.reaches P.deviceName P.devicePath) :
    (∃ Q, (m.run events).partitions[i]? = some Q ∧ Q = P ∧ Q.valid = false) ∧
    (∀ job success, (Event.jobUpdate job success).reaches P.deviceName P.devicePath →
      ∃ Q, (m.handle (Event.jobUpdate job success)).partitions[i]? = some Q ∧
        Q.valid = true) ∧
    (∀ block, (Event.blockUpdated block).reaches P.deviceName P.devicePath →
      ∃ Q, (m.handle (Event.blockUpdated block)).partitions[i]? = some Q ∧
        Q.valid = true) := by
  refine ⟨⟨P, run_unreached events m i P hP hno, rfl, hvalid⟩, ?_, ?_⟩
  · rintro job success ⟨hop, htarget⟩
    exact ⟨_, updatePartitionStatus_affected m job success i P hP htarget,
      jobResult_valid job success P hop⟩
  · intro block hreach
    have hd : P.devicePath = block.device := hreach
    refine ⟨propertiesResult m.supportedFileSystems block P, ?_, ?_⟩
    · show (updatePartitionProperties m block).partitions[i]? = _
      rw [updatePartitionProperties_getElem?, hP]
      rfl
    · simp [propertiesResult, hd]

/-- C18 amended, at a concrete input: "sda1" is not valid; an Unmount job on "sdb1", the
reconciliation of the block of "sdb1" and a mount request leave "sda1" not valid. -/
theorem valid_false_until_written_witness :
    ∃ Q, ((monitorOf [sda1Unmounted, sdb1Mounted]).run
            [Event.jobUpdate ⟨JobOperation.Unmount, [sdb1Path], JobStatus.Completed, false⟩
              true,
             Event.blockUpdated sdb1BlockUnmounted,
             Event.mount "sda1"]).partitions[0]? = some Q ∧
      Q = sda1Unmounted ∧ Q.valid = false :=
  (valid_false_until_written (monitorOf [sda1Unmounted, sdb1Mounted])
    [Event.jobUpdate ⟨JobOperation.Unmount, [sdb1Path], JobStatus.Completed, false⟩ true,
     Event.blockUpdated sdb1BlockUnmounted,
     Event.mount "sda1"]
    0 sda1Unmounted rfl rfl
    (by
      intro e he
      simp only [List.mem_cons, List.mem_singleton, List.not_mem_nil, or_false] at he
      rcases he with rfl | rfl | rfl
      · simp only [Event.reaches, List.mem_singleton, exists_eq_left, not_and]
        intro _
        decide
      · simp only [Event.reaches]
        decide
      · simp only [Event.reaches, not_false_eq_true])).1

/-! ## Job target resolution -/

theorem section_data (object : String) (start : Nat) :
    (QString.section object '/' start).data =
      joinFields '/' ((splitFields '/' object.data).drop start) := by
  unfold QString.section
  by_cases h : start ≥ (splitFields '/' object.data).length
  · simp only [h, if_true]
    rw [List.drop_of_length_le h]
    rfl
  · simp only [h, if_false]

/-- C19 as stated fails: for the object path "/org/freedesktop/UDisks2/block_devices/sda1/x"
the segment at index 5 is "sda1", the name of a tracked partition, but `lookupPartitions`
resolves the path to "sda1/x" and returns no partition. -/
theorem target_resolution_counterexample :
    ¬ ∀ (partitions : List Partition) (objects : List String) (i : Nat),
        i ∈ lookupPartitions partitions [] objects ↔
          ∃ object ∈ objects, ∃ p, partitions[i]? = some p ∧
            segmentAt object 5 = some p.deviceName := by
  intro h
  have h1 := (h [sda1Mounted] ["/org/freedesktop/UDisks2/block_devices/sda1/x"] 0).mpr
    ⟨"/org/freedesktop/UDisks2/block_devices/sda1/x", List.mem_singleton.mpr rfl,
      sda1Mounted, rfl, by decide⟩
  revert h1
  decide

/-- C19, amended: `lookupPartitions` maps every target object path to a device name by taking
the path from its '/'-separated field at index 5 to its end (`section('/', 5)`) and returns
exactly the tracked partitions whose deviceName is that name.  For a path of six fields the
name is the one segment at index 5, and for "/org/freedesktop/UDisks2/block_devices/" followed
by a name it is that name.  When no tracked partition matches any target of a job,
`updatePartitionStatus` leaves the monitor as it is: no field of any partition changes and no
notification is raised. -/
theorem target_resolution (m : Monitor) (job : Job) (success : Bool) :
    (∀ i, i ∈ lookupPartitions m.partitions [] job.objects ↔
      ∃ object ∈ job.objects, ∃ p, m.partitions[i]? = some p ∧
        p.deviceName = QString.section object '/' 5) ∧
    (∀ object : String, (QString.section object '/' 5).data =
      joinFields '/' ((splitFields '/' object.data).drop 5)) ∧
    (∀ object : String, (splitFields '/' object.data).length = 6 →
      some (QString.section object '/' 5) = segmentAt object 5) ∧
    (∀ deviceName : String,
      QString.section (UDISKS2_BLOCK_DEVICE_PATH deviceName) '/' 5 = deviceName) ∧
    ((∀ object ∈ job.objects, ∀ p ∈ m.partitions,
        p.deviceName ≠ QString.section object '/' 5) →
      updatePartitionStatus m job success = m) := by
  refine ⟨?_, fun object => section_data object 5, ?_, section_block_device_path, ?_⟩
  · intro i
    rw [mem_lookupPartitions]
    simp
  · intro object hlen
    unfold QString.section segmentAt
    have hge : ¬ (5 ≥ (splitFields '/' object.data).length) := by omega
    simp only [hge, if_false]
    match hs : splitFields '/' object.data, hlen with
    | [f0, f1, f2, f3, f4, f5], _ => rfl
  · intro hnone
    have hempty : lookupPartitions m.partitions [] job.objects = [] := by
      apply List.eq_nil_iff_forall_not_mem.mpr
      intro i hi
      rw [mem_lookupPartitions] at hi
      rcases hi with hi | ⟨object, hobj, p, hp, hname⟩
      · exact absurd hi (List.not_mem_nil i)
      · exact hnone object hobj p (List.getElem?_mem hp) hname
    rw [updatePartitionStatus_eq_foldl, hempty]
    rfl

/-- C19 amended, at a concrete input: a Mount job on "sdb1" while only "sda1" is tracked. -/
theorem target_resolution_witness :
    updatePartitionStatus (monitorOf [sda1Unmounted])
        ⟨JobOperation.Mount, [sdb1Path], JobStatus.Added, false⟩ true
      = monitorOf [sda1Unmounted] :=
  (target_resolution (monitorOf [sda1Unmounted])
    ⟨JobOperation.Mount, [sdb1Path], JobStatus.Added, false⟩ true).2.2.2.2 (by decide)

/-! ## nameFromGecos -/

theorem indexOf_ge (c : Char) (l : List Char) : -1 ≤ QString.indexOf c l := by
  induction l with
  | nil => simp [QString.indexOf]
  | cons x xs ih =>
    unfold QString.indexOf
    by_cases hx : x = c
    · simp [hx]
    · simp only [hx, if_false]
      split <;> omega

theorem indexOf_take (c : Char) (l : List Char) :
    (if QString.indexOf c l ≠ -1 then l.take (QString.indexOf c l).toNat else l) =
      l.takeWhile (fun x => decide (x ≠ c)) := by
  induction l with
  | nil => simp [QString.indexOf]
  | cons x xs ih =>
    have hge := indexOf_ge c xs
    unfold QString.indexOf
    by_cases hx : x = c
    · simp [hx]
    · by_cases hi : QString.indexOf c xs = -1
      · rw [hi] at ih
        simp only [ne_eq, not_true_eq_false, if_false] at ih
        have ih2 : xs = List.takeWhile (fun x => !decide (x = c)) xs := by simpa using ih
        simp [hx, hi, ← ih2]
      · have hne : QString.indexOf c xs + 1 ≠ -1 := by omega
        have hnat : (QString.indexOf c xs + 1).toNat = (QString.indexOf c xs).toNat + 1 := by
          omega
        simp only [ne_eq, hi, not_false_eq_true, if_true] at ih
        simp only [hx, if_false, hi, ne_eq, hne, not_false_eq_true, if_true, hnat,
          List.take_succ_cons, ih]
        simp [hx]

/-- The result of `nameFromGecos` is the longest comma-free start of its argument. -/
theorem nameFromGecos_data (gecos : String) :
    (nameFromGecos gecos).data = gecos.data.takeWhile (fun x => decide (x ≠ ',')) := by
  rw [← indexOf_take]
  unfold nameFromGecos
  by_cases hi : QString.indexOf ',' gecos.data = -1
  · simp [hi]
  · simp [hi]

theorem takeWhile_append_sep (c : Char) (pre rest : List Char) (h : c ∉ pre) :
    (pre ++ c :: rest).takeWhile (fun x => decide (x ≠ c)) = pre := by
  induction pre with
  | nil => simp
  | cons x xs ih =>
    simp only [List.mem_cons, not_or] at h
    have hx : x ≠ c := fun hxc => h.1 hxc.symm
    simp only [List.cons_append, List.takeWhile_cons, hx, ne_eq, not_false_eq_true,
      decide_True, if_true, ih h.2]

theorem takeWhile_of_not_mem (c : Char) (l : List Char) (h : c ∉ l) :
    l.takeWhile (fun x => decide (x ≠ c)) = l := by
  induction l with
  | nil => rfl
  | cons x xs ih =>
    simp only [List.mem_cons, not_or] at h
    have hx : x ≠ c := fun hxc => h.1 hxc.symm
    simp only [List.takeWhile_cons, hx, ne_eq, not_false_eq_true, decide_True, if_true,
      ih h.2]

theorem not_mem_takeWhile (c : Char) (l : List Char) :
    c ∉ l.takeWhile (fun x => decide (x ≠ c)) := by
  intro h
  have := List.mem_takeWhile_imp h
  simp at this

/-- C20: `nameFromGecos` returns the first comma-separated field of the GECOS string: the
part that precedes the first ',' and the whole input when there is no ','.  Hence the result
holds no comma, is a prefix of the input, is empty for an empty input, and the function
applied to its own result returns it unchanged. -/
theorem nameFromGecos_first_field (gecos : String) :
    (∀ pre rest, gecos.data = pre ++ ',' :: rest → ',' ∉ pre →
      nameFromGecos gecos = String.mk pre) ∧
    (',' ∉ gecos.data → nameFromGecos gecos = gecos) ∧
    ',' ∉ (nameFromGecos gecos).data ∧
    (nameFromGecos gecos).data <+: gecos.data ∧
    nameFromGecos "" = "" ∧
    nameFromGecos (nameFromGecos gecos) = nameFromGecos gecos := by
  refine ⟨?_, ?_, ?_, ?_, ?_, ?_⟩
  · intro pre rest hdata hpre
    apply String.ext
    rw [nameFromGecos_data, hdata, takeWhile_append_sep ',' pre rest hpre]
  · intro hnone
    apply String.ext
    rw [nameFromGecos_data, takeWhile_of_not_mem ',' _ hnone]
  · rw [nameFromGecos_data]
    exact not_mem_takeWhile ',' _
  · rw [nameFromGecos_data]
    exact List.takeWhile_prefix _
  · decide
  · apply String.ext
    rw [nameFromGecos_data, takeWhile_of_not_mem ',' _ ?_]
    rw [nameFromGecos_data]
    exact not_mem_takeWhile ',' _

/-- C20, at a concrete input: a GECOS field with a full name and three more sub-fields. -/
theorem nameFromGecos_first_field_witness :
    nameFromGecos "Jane Doe,Room 1,555-0100," = "Jane Doe" :=
  (nameFromGecos_first_field "Jane Doe,Room 1,555-0100,").1 "Jane Doe".data
    "Room 1,555-0100,".data (by decide) (by decide)

/-! ## The mount-path-changed handler and the partition status -/

/-- The property reconciliation keeps status, activeState and mountFailed, and keeps a set
valid flag. -/
theorem propertiesResult_keeps_state (fs : List String) (b : Block) (p : Partition) :
    (propertiesResult fs b p).status = p.status ∧
    (propertiesResult fs b p).activeState = p.activeState ∧
    (propertiesResult fs b p).mountFailed = p.mountFailed ∧
    (p.valid = true → (propertiesResult fs b p).valid = true) := by
  unfold propertiesResult
  by_cases hd : p.devicePath = b.device <;> simp [hd]

/-- A completed, successful, not busy Mount or Unmount job followed by a property
reconciliation: the status written by the job is what the partition ends with. -/
theorem status_after_job_and_properties (m : Monitor) (job : Job) (block : Block) (i : Nat)
    (P : Partition) (hP : m.partitions[i]? = some P)
    (ht : ∃ object ∈ job.objects, QString.section object '/' 5 = P.deviceName)
    (hst : job.status = JobStatus.Completed) (hbusy : job.deviceBusy = false) :
    ∃ Q, (updatePartitionProperties ((updatePartitionStatus m job true).blockSignals false)
            block).partitions[i]? = some Q ∧
      (job.operation = JobOperation.Unmount →
        Q.status = Status.Unmounted ∧ Q.activeState = "inactive" ∧
          Q.mountFailed = false ∧ Q.valid = true) ∧
      (job.operation = JobOperation.Mount →
        Q.status = Status.Mounted ∧ Q.activeState = "active" ∧
          Q.mountFailed = false ∧ Q.valid = true) := by
  have hstatus := updatePartitionStatus_affected m job true i P hP ht
  have hkeep := propertiesResult_keeps_state
    ((updatePartitionStatus m job true).blockSignals false).supportedFileSystems block
    (jobResult job true P)
  refine ⟨propertiesResult
    ((updatePartitionStatus m job true).blockSignals false).supportedFileSystems block
    (jobResult job true P), ?_, ?_, ?_⟩
  · rw [updatePartitionProperties_getElem?]
    show Option.map _ ((updatePartitionStatus m job true).partitions[i]?) = _
    rw [hstatus]
    rfl
  · intro hop
    have hv : (jobResult job true P).valid = true := by
      simp [jobResult, hop, mountUnmountResult, mountUnmountStep]
    rw [hkeep.1, hkeep.2.1, hkeep.2.2.1, hkeep.2.2.2 hv]
    simp [jobResult, hop, mountUnmountResult, mountUnmountStep, hst, hbusy]
  · intro hop
    have hv : (jobResult job true P).valid = true := by
      simp [jobResult, hop, mountUnmountResult, mountUnmountStep]
    rw [hkeep.1, hkeep.2.1, hkeep.2.2.1, hkeep.2.2.2 hv]
    simp [jobResult, hop, mountUnmountResult, mountUnmountStep, hst, hbusy]

/-- C21: when the mount path of a block changes, the handler makes the status of every
partition `P` (at index `i`) whose deviceName is the device name of the object path of the
block follow the mount path: with an empty mount path `P` ends with status `Unmounted` and
activeState "inactive", with a non-empty mount path with status `Mounted` and activeState
"active"; in both cases mountFailed = false and valid = true, whatever `P` held before. -/
theorem status_follows_mount_path (m : Monitor) (block : Block) (i : Nat) (P : Partition)
    (hP : m.partitions[i]? = some P)
    (hname : QString.section block.path '/' 5 = P.deviceName) :
    ∃ Q, (mountPathChanged m block).partitions[i]? = some Q ∧
      (block.mountPath = "" → Q.status = Status.Unmounted ∧ Q.activeState = "inactive") ∧
      (block.mountPath ≠ "" → Q.status = Status.Mounted ∧ Q.activeState = "active") ∧
      Q.mountFailed = false ∧ Q.valid = true := by
  obtain ⟨Q, hQ, hunmount, hmount⟩ :=
    status_after_job_and_properties (m.blockSignals true)
      ((Job.create
        (if block.mountPath = "" then UDISKS2_JOB_OP_FS_UNMOUNT
         else UDISKS2_JOB_OP_FS_MOUNT) [block.path]).complete true)
      block i P hP ⟨block.path, by simp [Job.create, Job.complete], hname⟩ rfl rfl
  rw [← mountPathChanged_partitions] at hQ
  have hop : UDISKS2_JOB_OP_FS_UNMOUNT ≠ UDISKS2_JOB_OP_FS_MOUNT := by decide
  by_cases hempty : block.mountPath = ""
  · have h := hunmount (by simp [Job.create, Job.complete, hempty, hop])
    exact ⟨Q, hQ, fun _ => ⟨h.1, h.2.1⟩, fun hne => absurd hempty hne, h.2.2.1, h.2.2.2⟩
  · have h := hmount (by simp [Job.create, Job.complete, hempty])
    exact ⟨Q, hQ, fun he => absurd he hempty, fun _ => ⟨h.1, h.2.1⟩, h.2.2.1, h.2.2.2⟩

/-- C21, at a concrete input: the mount path of the block of the mounted partition "sda1"
becomes empty. -/
theorem status_follows_mount_path_witness :
    ∃ Q, (mountPathChanged (monitorOf [sda1Mounted]) sda1BlockUnmounted).partitions[0]?
          = some Q ∧
      Q.status = Status.Unmounted ∧ Q.activeState = "inactive" ∧
      Q.mountFailed = false ∧ Q.valid = true := by
  obtain ⟨Q, hQ, hempty, _, hfailed, hvalid⟩ :=
    status_follows_mount_path (monitorOf [sda1Mounted]) sda1BlockUnmounted 0 sda1Mounted rfl
      (by decide)
  exact ⟨Q, hQ, (hempty rfl).1, (hempty rfl).2, hfailed, hvalid⟩

end UDisks2
